import Mathlib

/-!
# Verification of the INTELIQ wallet-assistant core

A shallow embedding, in Lean 4, of the intent-parsing and
transaction-orchestration core of the repository: the auto-swap service
(`src/hooks/useGlobalMarketData.ts`), the token-transfer service
(`src/lib/token-transfer-service.ts`), the RPC connection manager
(`src/lib/connection-manager.ts`), the wallet-data provider
(`src/lib/wallet-data-provider.ts`), the natural-language request
classifier (`src/lib/services/ai-wallet-service.ts`) and the transfer
command amount/token extraction (`src/lib/transfer-command-parser.ts`).

External effects (RPC calls, HTTP fetches, wallet signing) are modelled by
explicit environments recording the outcome of each call, so every service
becomes a total function of its inputs and its environment.  JavaScript
numbers are modelled as exact rationals, machine strings by `String` /
`List Char`.  Instrumentation: the swap and transfer services additionally
return the list of network steps they performed, so that reachability of
the broadcast / quote / balance-fetch steps is a provable statement.
-/

namespace Inteliq

/-! ## Small JavaScript-flavoured string and number utilities -/

/-- The apostrophe character (used by some of the source's regexes and
message texts). -/
def apos : Char := Char.ofNat 39

/-- JavaScript `String.prototype.toLowerCase` on one character
(ASCII fragment, which is all the source uses). -/
def jsLower (c : Char) : Char := c.toLower

/-- JavaScript `String.prototype.toUpperCase` on one character
(ASCII fragment). -/
def jsUpper (c : Char) : Char := c.toUpper

/-- Uppercase a string, as `"sol".toUpperCase()` does. -/
def strUpper (s : String) : String := String.mk (s.toList.map jsUpper)

/-- Lowercase a string, as `request.toLowerCase()` does. -/
def strLower (s : String) : String := String.mk (s.toList.map jsLower)

/-- Does `pat` occur at the head of `s` (character lists, case sensitive)? -/
def leadsWith : List Char → List Char → Bool
  | [], _ => true
  | _ :: _, [] => false
  | p :: ps, c :: cs => p == c && leadsWith ps cs

/-- Does `pat` occur anywhere inside `s`?  Models JavaScript
`String.prototype.includes`. -/
def containsSub (pat : List Char) : List Char → Bool
  | [] => leadsWith pat []
  | c :: cs => leadsWith pat (c :: cs) || containsSub pat cs

/-- `a.includes(b)` on Lean strings. -/
def strIncludes (s pat : String) : Bool := containsSub pat.toList s.toList

/-- JavaScript `\w` word characters: ASCII letters, digits and underscore
(stated on character codes: 0-9 is 48-57, A-Z is 65-90, `_` is 95, a-z is
97-122). -/
def isWordChar (c : Char) : Bool :=
  ((48 ≤ c.toNat && c.toNat ≤ 57) || (65 ≤ c.toNat && c.toNat ≤ 90) ||
   c.toNat == 95 || (97 ≤ c.toNat && c.toNat ≤ 122))

/-- JavaScript `\s` whitespace (the characters the source's inputs can
contain; the full class also has unicode spaces, all non-ASCII here):
space is 32, tab to carriage return are 9-13. -/
def isSpaceChar (c : Char) : Bool :=
  (c.toNat == 32 || (9 ≤ c.toNat && c.toNat ≤ 13))

/-- ASCII decimal digit. -/
def isDigitChar (c : Char) : Bool := (48 ≤ c.toNat && c.toNat ≤ 57)

/-- The base58 alphabet used by the source's address regexes:
`[1-9A-HJ-NP-Za-km-z]`: digits without 0 (49-57), uppercase letters
without `I` (73) and `O` (79), lowercase letters without `l` (108). -/
def isBase58Char (c : Char) : Bool :=
  ((49 ≤ c.toNat && c.toNat ≤ 57) ||
   (65 ≤ c.toNat && c.toNat ≤ 72) || (74 ≤ c.toNat && c.toNat ≤ 78) ||
   (80 ≤ c.toNat && c.toNat ≤ 90) ||
   (97 ≤ c.toNat && c.toNat ≤ 107) || (109 ≤ c.toNat && c.toNat ≤ 122))

/-- The character class `[1-9A-HJ-NP-Za-km-z]` under the `i` flag: a
character matches if some case variant of it is in the class.  This makes
the class exactly the digits 1-9 plus all ASCII letters (`i` restores
`I`/`O` via `a-k`/`m-z` and `l` via `J-N`). -/
def isBase58CharCI (c : Char) : Bool :=
  ((49 ≤ c.toNat && c.toNat ≤ 57) ||
   (65 ≤ c.toNat && c.toNat ≤ 90) || (97 ≤ c.toNat && c.toNat ≤ 122))

/-- The lower-cased character code used for case-insensitive (`i` flag)
matching: uppercase ASCII letters fold onto lowercase. -/
def lowerCode (c : Char) : ℕ :=
  if 65 ≤ c.toNat && c.toNat ≤ 90 then c.toNat + 32 else c.toNat

/-- Case-insensitive character comparison (the `i` flag). -/
def ciEq (a b : Char) : Bool := lowerCode a == lowerCode b

/-- Case-insensitive prefix test. -/
def leadsWithCI : List Char → List Char → Bool
  | [], _ => true
  | _ :: _, [] => false
  | p :: ps, c :: cs => ciEq p c && leadsWithCI ps cs

/-- Numeric value of a digit character. -/
def digitVal (c : Char) : ℕ := c.toNat - '0'.toNat

/-- Value of a string of decimal digits. -/
def digitsVal (ds : List Char) : ℕ := ds.foldl (fun a c => 10 * a + digitVal c) 0

/-- Value of the fractional digits `ds` read after a decimal point. -/
def fracVal (ds : List Char) : ℚ := (digitsVal ds : ℚ) / ((10 : ℚ) ^ ds.length)

/-- The rational denoted by an integer digit run `d1` and fractional digit
run `d2` (the value JavaScript `parseFloat` gives to `d1 ++ "." ++ d2`,
with the convention that both runs may be empty). -/
def decValue (d1 d2 : List Char) : ℚ := (digitsVal d1 : ℚ) + fracVal d2

/-- JavaScript `parseFloat` restricted to the shapes the source ever feeds
it: an optional sign, digits, an optional point and more digits (no
exponents).  `none` models `NaN`. -/
def jsParseFloat (s : String) : Option ℚ :=
  let cs := s.toList
  let core : List Char → Option ℚ := fun t =>
    let d1 := t.takeWhile isDigitChar
    let r1 := t.drop d1.length
    match r1 with
    | [] => if d1.isEmpty then none else some (decValue d1 [])
    | '.' :: r2 =>
        let d2 := r2.takeWhile isDigitChar
        if d1.isEmpty && d2.isEmpty then none else some (decValue d1 d2)
    | _ => if d1.isEmpty then none else some (decValue d1 [])
  match cs with
  | '-' :: t => (core t).map Neg.neg
  | '+' :: t => core t
  | t => core t

/-- The integer `n` such that `n / 10^f` is nearest to `x`, larger on
ties — the rounding of ECMAScript `Number.prototype.toFixed` (applied to
`|x|`, the sign being re-attached by the caller). -/
def toFixedInt (x : ℚ) (f : ℕ) : ℤ := ⌊x * (10 : ℚ) ^ f + 1 / 2⌋

/-- Digits of a natural number (at least one digit). -/
def natDigits (n : ℕ) : List Char :=
  (Nat.toDigits 10 n)

/-- Render `n / 10^f` with exactly `f` fractional digits, as `toFixed`
formats its rounded scaled integer. -/
def renderFixed (n : ℕ) (f : ℕ) : String :=
  if f = 0 then String.mk (natDigits n)
  else
    let ds := natDigits n
    let ds := if ds.length ≤ f then List.replicate (f + 1 - ds.length) '0' ++ ds else ds
    String.mk (ds.take (ds.length - f) ++ '.' :: ds.drop (ds.length - f))

/-- ECMAScript `Number.prototype.toFixed` on an exact rational. -/
def toFixed (x : ℚ) (f : ℕ) : String :=
  if x < 0 then "-" ++ renderFixed (toFixedInt (-x) f).toNat f
  else renderFixed (toFixedInt x f).toNat f

/-- `toFixed` lifted to `Option ℚ`, where `none` models `NaN`
(`NaN.toFixed(f)` is `"NaN"`). -/
def toFixedN (x : Option ℚ) (f : ℕ) : String :=
  match x with
  | some q => toFixed q f
  | none => "NaN"

/-- `x < q` on JavaScript numbers where `x` may be `NaN` (comparisons with
`NaN` are false). -/
def numLt (x : Option ℚ) (q : ℚ) : Bool :=
  match x with
  | some v => v < q
  | none => false

/-- `x > q` on JavaScript numbers where `x` may be `NaN`. -/
def numGt (x : Option ℚ) (q : ℚ) : Bool :=
  match x with
  | some v => q < v
  | none => false

end Inteliq

namespace Inteliq

/-! ## AutoSwapService (`src/hooks/useGlobalMarketData.ts`)

The service validates a swap intent against a wallet snapshot, executes a
swap through Jupiter, and verifies success by diffing pre/post balances.
External calls are represented by a `SwapEnv` recording each call's
outcome (`Except.error` models a thrown exception). -/

/-- A swap intent: `{ fromToken, toToken, amount }` (amount as entered). -/
structure SwapIntent where
  fromToken : String
  toToken : String
  amount : String
deriving Repr, DecidableEq

/-- A JavaScript number that may be `NaN`. -/
abbrev JsNum := Option ℚ

/-- The `SwapResponse` interface of the source. -/
structure SwapResponse where
  success : Bool
  message : String
  txId : Option String := none
  fromAmount : Option String := none
  toAmount : Option String := none
  usdValue : Option ℚ := none
  error : Option String := none
  rawOutputAmount : Option JsNum := none
deriving Repr, DecidableEq

/-- The `ValidationResult` interface of the source. -/
structure ValidationResult where
  valid : Bool
  reason : Option String := none
deriving Repr, DecidableEq

/-- One fungible-token entry of a wallet snapshot, as far as the swap
service reads it (`symbol` and `balance`). -/
structure TokenBal where
  symbol : String
  balance : ℚ
deriving Repr, DecidableEq

/-- The wallet snapshot consumed by the swap service
(`WalletDataProvider.getWalletData` result: `solBalance` plus tokens). -/
structure WalletData where
  solBalance : ℚ
  tokens : List TokenBal
deriving Repr, DecidableEq

/-- The fixed supported-token allow-list of the swap service. -/
def supportedTokens : List String :=
  ["SOL", "USDC", "USDT", "BONK", "JUP", "RAY", "PYTH", "WIF", "JTO", "MEME"]

/-- Balance record `Record<string, number>`: later writes overwrite. -/
abbrev BalMap := List (String × ℚ)

/-- Set `balances[k] = v` (overwriting), as assignment to a JS record. -/
def balSet (m : BalMap) (k : String) (v : ℚ) : BalMap :=
  if m.any (fun p => p.1 == k) then m.map (fun p => if p.1 == k then (k, v) else p)
  else m ++ [(k, v)]

/-- `balances[token] || 0`: lookup with default `0` for a missing key. -/
def balGet (m : BalMap) (k : String) : ℚ :=
  match m.find? (fun p => p.1 == k) with
  | some p => p.2
  | none => 0

/-- `AutoSwapService.validateSwapRequest`.  The body's `try`/`catch` is
omitted: every step of the body is total in this model.  The template
literal `${token.balance}` is abstracted by the canonical rendering of the
rational (no theorem reads that message). -/
def validateSwapRequest (intent : SwapIntent) (walletData : WalletData) : ValidationResult :=
  if intent.fromToken == "" || intent.toToken == "" || intent.amount == "" then
    ⟨false, some "Missing required swap information"⟩
  else
    let fromToken := intent.fromToken
    let toToken := intent.toToken
    let amount := intent.amount
    if !(supportedTokens.contains fromToken) then
      ⟨false, some (fromToken ++ " is not supported yet in our utilities. Please try other supported coins like USDT, USDC, SOL.")⟩
    else if !(supportedTokens.contains toToken) then
      ⟨false, some (toToken ++ " is not supported yet in our utilities. Please try other supported coins like USDT, USDC, SOL.")⟩
    else if fromToken == toToken then
      ⟨false, some "Cannot swap a token to itself"⟩
    else
      let numericAmount := jsParseFloat amount
      if !(numGt numericAmount 0) then
        ⟨false, some "Swap amount must be greater than 0"⟩
      else if fromToken == "SOL" then
        let availableBalance := walletData.solBalance - 1 / 100
        if numGt numericAmount availableBalance then
          ⟨false, some ("Insufficient SOL balance. You have " ++ toFixed availableBalance 4 ++ " SOL available for swapping (keeping 0.01 SOL for fees)")⟩
        else ⟨true, none⟩
      else
        match walletData.tokens.find? (fun t => t.symbol == fromToken) with
        | none =>
            ⟨false, some ("You don" ++ String.mk [apos] ++ "t have any " ++ fromToken ++ " in your wallet")⟩
        | some token =>
            if numGt numericAmount token.balance then
              ⟨false, some ("Insufficient " ++ fromToken ++ " balance. You have " ++ toString token.balance ++ " " ++ fromToken)⟩
            else ⟨true, none⟩

/-- The swap-quote response, as far as the service reads it. -/
structure Quote where
  outAmount : Option String := none
deriving Repr, DecidableEq

/-- The network-visible steps of `executeSwap`, recorded as instrumentation
(the spec's "verify via a mock connection" idiom). -/
inductive NetStep where
  | preBalanceFetch
  | quoteRequest
  | broadcast
  | confirmRequest
  | postBalanceFetch
deriving Repr, DecidableEq

/-- Environment of one `executeSwap` run: the outcome of each external
call, in program order.  `Except.error m` models the awaited promise
rejecting with an error whose `.message` is `m`. -/
structure SwapEnv where
  connected : Bool
  preFetch : Except String WalletData
  quote : Except String (Option Quote)
  prepared : Except String Unit
  sendTx : Except String String
  confirmTx : Except String (Option String)
  postFetch : Except String WalletData

/-- `AutoSwapService.getTokenBalances`: builds a symbol-indexed balance
record from a wallet snapshot; a failed fetch is swallowed and yields the
empty record. -/
def getTokenBalances (fetch : Except String WalletData) : BalMap :=
  match fetch with
  | .ok walletData =>
      walletData.tokens.foldl (fun m t => balSet m t.symbol t.balance)
        [("SOL", walletData.solBalance)]
  | .error _ => []

/-- `AutoSwapService.verifyBalanceChange` (`true` input means direction
`increase`). -/
def verifyBalanceChange (preBalances postBalances : BalMap) (token : String)
    (increase : Bool) : Bool :=
  let pre := balGet preBalances token
  let post := balGet postBalances token
  if increase then decide (pre < post) else decide (post < pre)

/-- The recognized network-limitation markers of the confirmation catch. -/
def confirmErrRecognized (msg : String) : Bool :=
  (msg != "" && strIncludes msg "API key is not allowed to access blockchain") ||
  (msg != "" && strIncludes msg "failed to get recent blockhash") ||
  (msg != "" && strIncludes msg "Failed to fetch")

/-- The user-rejection markers of `executeSwap`'s outer catch. -/
def userRejected (msg : String) : Bool :=
  msg != "" &&
  (strIncludes msg "User rejected" ||
   strIncludes msg "Transaction was not confirmed" ||
   strIncludes msg "User denied")

/-- `executeSwap`'s outer `catch (error)` handler. -/
def swapCatch (msg : String) : SwapResponse :=
  if userRejected msg then
    { success := false, message := "Transaction cancelled by user", error := some "USER_REJECTED" }
  else
    { success := false
      message := "Swap failed: " ++ (if msg == "" then "Unknown error" else msg)
      error := some (if msg == "" then "EXECUTION_ERROR" else msg) }

/-- The `UNSUPPORTED_TOKEN` early return of `executeSwap`. -/
def unsupportedResp (token : String) : SwapResponse :=
  { success := false
    message := token ++ " is not supported yet in our utilities. Please try other supported coins like USDT, USDC, SOL."
    error := some "UNSUPPORTED_TOKEN" }

/-- `AutoSwapService.executeSwap`, instrumented with the list of network
steps it performed.  Mirrors the source step for step; the pre/post
balance fetches go through `getTokenBalances` (which swallows fetch
errors), the confirmation catch recognizes the network-limitation markers
and falls through to balance verification, and only a non-increased output
balance fails the swap after broadcast. -/
def executeSwap (intent : SwapIntent) (env : SwapEnv) : SwapResponse × List NetStep :=
  if !env.connected then
    ({ success := false, message := "Wallet is not connected", error := some "WALLET_NOT_CONNECTED" }, [])
  else
    let fromToken := intent.fromToken
    let toToken := intent.toToken
    let amount := intent.amount
    if !(supportedTokens.contains fromToken) then (unsupportedResp fromToken, [])
    else if !(supportedTokens.contains toToken) then (unsupportedResp toToken, [])
    else
      -- 1. capture pre-swap balances
      let preSwapBalances := getTokenBalances env.preFetch
      let tr1 : List NetStep := [.preBalanceFetch]
      -- 2./3. quote from Jupiter
      match env.quote with
      | .error msg => (swapCatch msg, tr1 ++ [.quoteRequest])
      | .ok quoteResponse =>
        let tr2 := tr1 ++ [.quoteRequest]
        match quoteResponse with
        | none => ({ success := false, message := "Failed to get swap quote from Jupiter", error := some "QUOTE_FAILED" }, tr2)
        | some q =>
          match q.outAmount with
          | none => ({ success := false, message := "Failed to get swap quote from Jupiter", error := some "QUOTE_FAILED" }, tr2)
          | some outStr =>
            if outStr == "" then
              ({ success := false, message := "Failed to get swap quote from Jupiter", error := some "QUOTE_FAILED" }, tr2)
            else
              -- 4. expected output amount
              let outputDecimals : ℕ := if toToken == "SOL" then 9 else 6
              let outputAmount : JsNum :=
                (jsParseFloat outStr).map (fun v => v / (10 : ℚ) ^ outputDecimals)
              -- 5. prepare the transaction
              match env.prepared with
              | .error msg => (swapCatch msg, tr2)
              | .ok _ =>
                -- 6. sign and send
                match env.sendTx with
                | .error msg => (swapCatch msg, tr2 ++ [.broadcast])
                | .ok signature =>
                  let tr3 := tr2 ++ [.broadcast]
                  -- 8./9. balance verification and success formatting
                  let finish : List NetStep → SwapResponse × List NetStep := fun tr =>
                    let postSwapBalances := getTokenBalances env.postFetch
                    let trv := tr ++ [.postBalanceFetch]
                    let outputTokenIncreased :=
                      verifyBalanceChange preSwapBalances postSwapBalances toToken true
                    let _inputTokenDecreased :=
                      verifyBalanceChange preSwapBalances postSwapBalances fromToken false
                    if !outputTokenIncreased then
                      ({ success := false
                         message := "Swap may have failed: " ++ toToken ++ " balance did not increase. Please check your wallet."
                         error := some "BALANCE_VERIFICATION_FAILED"
                         txId := some signature }, trv)
                    else
                      let formattedAmount :=
                        toFixedN (jsParseFloat amount) (if fromToken == "SOL" then 5 else 2)
                      let formattedOutput :=
                        if toToken == "USDC" || toToken == "USDT" then
                          if numLt outputAmount (1 / 100) then toFixedN outputAmount 8
                          else toFixedN outputAmount 2
                        else if numLt outputAmount (1 / 10000) then toFixedN outputAmount 6
                        else toFixedN outputAmount (if toToken == "SOL" then 5 else 2)
                      let formattedOutput :=
                        if numGt outputAmount 0 && formattedOutput == "0.00" then
                          toFixedN outputAmount 6
                        else formattedOutput
                      ({ success := true
                         message := "Successfully swapped " ++ formattedAmount ++ " " ++ fromToken ++ " for " ++ formattedOutput ++ " " ++ toToken
                         txId := some signature
                         fromAmount := some formattedAmount
                         toAmount := some formattedOutput
                         rawOutputAmount := some outputAmount }, trv)
                  -- 7. wait for confirmation
                  match env.confirmTx with
                  | .ok confErr =>
                    let tr4 := tr3 ++ [.confirmRequest]
                    match confErr with
                    | some e =>
                        ({ success := false
                           message := "Swap failed: " ++ e
                           error := some "TRANSACTION_ERROR"
                           txId := some signature }, tr4)
                    | none => finish tr4
                  | .error msg =>
                    let tr4 := tr3 ++ [.confirmRequest]
                    if confirmErrRecognized msg then finish tr4
                    else
                      ({ success := false
                         message := "Error confirming transaction: " ++ msg
                         error := some "CONFIRMATION_ERROR"
                         txId := some signature }, tr4)

end Inteliq

namespace Inteliq

/-! ## Claims about the swap service (C1, C2, C6, C10) -/

/-- Helper: second projection of an `if` whose branches share the trace. -/
theorem snd_ite_pair {α β : Type} (b : Prop) [Decidable b] (x y : α) (t : β) :
    (if b then (x, t) else (y, t)).2 = t := by
  split <;> rfl

/-- Helper shared by the balance-verification claims: a swap that reaches
the verification step (confirmation succeeded without an on-chain error,
or its confirmation call threw a recognized network-limitation error)
whose output-token balance did not strictly increase is reported as
`BALANCE_VERIFICATION_FAILED`, carrying the signature. -/
theorem executeSwap_verification_failure_core
    (intent : SwapIntent) (env : SwapEnv)
    (hconn : env.connected = true)
    (hf : supportedTokens.contains intent.fromToken = true)
    (ht : supportedTokens.contains intent.toToken = true)
    (q : Quote) (outStr : String)
    (hq : env.quote = .ok (some q)) (hout : q.outAmount = some outStr)
    (hne : (outStr == "") = false)
    (hp : env.prepared = .ok ())
    (sig : String) (hs : env.sendTx = .ok sig)
    (hconf : env.confirmTx = .ok none ∨
      ∃ msg, env.confirmTx = .error msg ∧ confirmErrRecognized msg = true)
    (hbal : ¬ (balGet (getTokenBalances env.preFetch) intent.toToken <
               balGet (getTokenBalances env.postFetch) intent.toToken)) :
    (executeSwap intent env).1.success = false ∧
    (executeSwap intent env).1.error = some "BALANCE_VERIFICATION_FAILED" ∧
    (executeSwap intent env).1.txId = some sig := by
  rcases hconf with hc | ⟨msg, hc, hrec⟩
  · unfold executeSwap
    simp only [hconn, hf, ht, hq, hout, hne, hp, hs, hc, Bool.not_true, Bool.not_false,
      if_true, if_false, ite_true, ite_false, Bool.false_eq_true, Bool.true_eq_false,
      verifyBalanceChange, decide_eq_false hbal]
    exact ⟨trivial, trivial, trivial⟩
  · unfold executeSwap
    simp only [hconn, hf, ht, hq, hout, hne, hp, hs, hc, hrec, Bool.not_true, Bool.not_false,
      if_true, if_false, ite_true, ite_false, Bool.false_eq_true, Bool.true_eq_false,
      verifyBalanceChange, decide_eq_false hbal]
    exact ⟨trivial, trivial, trivial⟩

/-- C1: a swap whose confirmation call throws an error carrying one of the
recognized network-limitation markers ("API key is not allowed to access
blockchain", "failed to get recent blockhash", "Failed to fetch"), and
whose re-fetched output-token balance is strictly greater than its
pre-swap balance, returns `success = true`. -/
theorem swap_confirm_marker_balance_increase_success
    (intent : SwapIntent) (env : SwapEnv)
    (hconn : env.connected = true)
    (hf : supportedTokens.contains intent.fromToken = true)
    (ht : supportedTokens.contains intent.toToken = true)
    (q : Quote) (outStr : String)
    (hq : env.quote = .ok (some q)) (hout : q.outAmount = some outStr)
    (hne : (outStr == "") = false)
    (hp : env.prepared = .ok ())
    (sig : String) (hs : env.sendTx = .ok sig)
    (msg : String) (hc : env.confirmTx = .error msg)
    (hrec : confirmErrRecognized msg = true)
    (hbal : balGet (getTokenBalances env.preFetch) intent.toToken <
            balGet (getTokenBalances env.postFetch) intent.toToken) :
    (executeSwap intent env).1.success = true := by
  unfold executeSwap
  simp only [hconn, hf, ht, hq, hout, hne, hp, hs, hc, hrec, Bool.not_true, Bool.not_false,
    if_true, if_false, ite_true, ite_false, Bool.false_eq_true, Bool.true_eq_false,
    verifyBalanceChange, decide_eq_true hbal]

/-- Environment witnessing C1: confirmation rejects with "Failed to
fetch", the USDC balance goes from 0 to 1 on the re-fetch. -/
def envSwapC1 : SwapEnv :=
  { connected := true
    preFetch := .ok ⟨5, []⟩
    quote := .ok (some ⟨some "10000"⟩)
    prepared := .ok ()
    sendTx := .ok "sig123"
    confirmTx := .error "Failed to fetch"
    postFetch := .ok ⟨48 / 10, [⟨"USDC", 1⟩]⟩ }

/-- C1 witness: the hypotheses of
`swap_confirm_marker_balance_increase_success` hold of `envSwapC1` and a
SOL-to-USDC swap, and the result is reported successful. -/
theorem swap_confirm_marker_balance_increase_success_witness :
    (executeSwap ⟨"SOL", "USDC", "0.01"⟩ envSwapC1).1.success = true :=
  swap_confirm_marker_balance_increase_success ⟨"SOL", "USDC", "0.01"⟩ envSwapC1
    rfl (by decide) (by decide) ⟨some "10000"⟩ "10000" rfl rfl (by decide) rfl
    "sig123" rfl "Failed to fetch" rfl (by decide) (by decide)

/-- C2: a swap that reaches the balance-verification step after broadcast
(its confirmation either succeeded without an on-chain error or threw a
recognized network-limitation error) and whose re-fetched output-token
balance is not strictly greater than before is reported with
`success = false`, `error = "BALANCE_VERIFICATION_FAILED"` and the
transaction signature in `txId`. -/
theorem swap_balance_not_increased_reports_failure
    (intent : SwapIntent) (env : SwapEnv)
    (hconn : env.connected = true)
    (hf : supportedTokens.contains intent.fromToken = true)
    (ht : supportedTokens.contains intent.toToken = true)
    (q : Quote) (outStr : String)
    (hq : env.quote = .ok (some q)) (hout : q.outAmount = some outStr)
    (hne : (outStr == "") = false)
    (hp : env.prepared = .ok ())
    (sig : String) (hs : env.sendTx = .ok sig)
    (hconf : env.confirmTx = .ok none ∨
      ∃ msg, env.confirmTx = .error msg ∧ confirmErrRecognized msg = true)
    (hbal : ¬ (balGet (getTokenBalances env.preFetch) intent.toToken <
               balGet (getTokenBalances env.postFetch) intent.toToken)) :
    (executeSwap intent env).1.success = false ∧
    (executeSwap intent env).1.error = some "BALANCE_VERIFICATION_FAILED" ∧
    (executeSwap intent env).1.txId = some sig :=
  executeSwap_verification_failure_core intent env hconn hf ht q outStr hq hout hne hp
    sig hs hconf hbal

/-- Environment witnessing C2: confirmation succeeds but the USDC balance
stays at 2 on the re-fetch. -/
def envSwapC2 : SwapEnv :=
  { connected := true
    preFetch := .ok ⟨5, [⟨"USDC", 2⟩]⟩
    quote := .ok (some ⟨some "10000"⟩)
    prepared := .ok ()
    sendTx := .ok "sig456"
    confirmTx := .ok none
    postFetch := .ok ⟨5, [⟨"USDC", 2⟩]⟩ }

/-- C2 witness: `swap_balance_not_increased_reports_failure` applied to
`envSwapC2`. -/
theorem swap_balance_not_increased_reports_failure_witness :
    (executeSwap ⟨"SOL", "USDC", "0.01"⟩ envSwapC2).1.success = false ∧
    (executeSwap ⟨"SOL", "USDC", "0.01"⟩ envSwapC2).1.error =
      some "BALANCE_VERIFICATION_FAILED" ∧
    (executeSwap ⟨"SOL", "USDC", "0.01"⟩ envSwapC2).1.txId = some "sig456" :=
  swap_balance_not_increased_reports_failure ⟨"SOL", "USDC", "0.01"⟩ envSwapC2
    rfl (by decide) (by decide) ⟨some "10000"⟩ "10000" rfl rfl (by decide) rfl
    "sig456" rfl (Or.inl rfl) (by decide)

/-- C10: if the post-swap balance re-fetch fails, `getTokenBalances`
swallows the error and yields the empty record (every token reads as 0),
so a broadcast swap whose post-swap fetch fails — and whose pre-swap
output-token balance was nonnegative — is reported as
`BALANCE_VERIFICATION_FAILED` with the signature in `txId`. -/
theorem swap_postfetch_failure_reports_balance_failure
    (intent : SwapIntent) (env : SwapEnv)
    (hconn : env.connected = true)
    (hf : supportedTokens.contains intent.fromToken = true)
    (ht : supportedTokens.contains intent.toToken = true)
    (q : Quote) (outStr : String)
    (hq : env.quote = .ok (some q)) (hout : q.outAmount = some outStr)
    (hne : (outStr == "") = false)
    (hp : env.prepared = .ok ())
    (sig : String) (hs : env.sendTx = .ok sig)
    (hconf : env.confirmTx = .ok none ∨
      ∃ msg, env.confirmTx = .error msg ∧ confirmErrRecognized msg = true)
    (pmsg : String) (hpost : env.postFetch = .error pmsg)
    (hpre : 0 ≤ balGet (getTokenBalances env.preFetch) intent.toToken) :
    getTokenBalances env.postFetch = [] ∧
    (executeSwap intent env).1.success = false ∧
    (executeSwap intent env).1.error = some "BALANCE_VERIFICATION_FAILED" ∧
    (executeSwap intent env).1.txId = some sig := by
  have hempty : getTokenBalances env.postFetch = [] := by rw [hpost]; rfl
  have hzero : balGet (getTokenBalances env.postFetch) intent.toToken = 0 := by
    rw [hempty]; rfl
  refine ⟨hempty, ?_⟩
  have hbal : ¬ (balGet (getTokenBalances env.preFetch) intent.toToken <
      balGet (getTokenBalances env.postFetch) intent.toToken) := by
    rw [hzero]; exact not_lt.mpr hpre
  exact executeSwap_verification_failure_core intent env hconn hf ht q outStr hq hout hne
    hp sig hs hconf hbal

/-- Environment witnessing C10: confirmation throws a recognized marker
and the post-swap balance fetch fails. -/
def envSwapC10 : SwapEnv :=
  { connected := true
    preFetch := .ok ⟨5, [⟨"USDC", 2⟩]⟩
    quote := .ok (some ⟨some "10000"⟩)
    prepared := .ok ()
    sendTx := .ok "sig789"
    confirmTx := .error "failed to get recent blockhash"
    postFetch := .error "Failed to fetch" }

/-- C10 witness: `swap_postfetch_failure_reports_balance_failure` applied
to `envSwapC10`. -/
theorem swap_postfetch_failure_reports_balance_failure_witness :
    getTokenBalances envSwapC10.postFetch = [] ∧
    (executeSwap ⟨"SOL", "USDC", "0.01"⟩ envSwapC10).1.success = false ∧
    (executeSwap ⟨"SOL", "USDC", "0.01"⟩ envSwapC10).1.error =
      some "BALANCE_VERIFICATION_FAILED" ∧
    (executeSwap ⟨"SOL", "USDC", "0.01"⟩ envSwapC10).1.txId = some "sig789" :=
  swap_postfetch_failure_reports_balance_failure ⟨"SOL", "USDC", "0.01"⟩ envSwapC10
    rfl (by decide) (by decide) ⟨some "10000"⟩ "10000" rfl rfl (by decide) rfl
    "sig789" rfl (Or.inr ⟨"failed to get recent blockhash", rfl, by decide⟩)
    "Failed to fetch" rfl (by decide)

/-- Environment used by the C6 counterexample: a connected wallet, all
later calls irrelevant (the quote already resolves to `null`). -/
def envSelfSwap : SwapEnv :=
  { connected := true
    preFetch := .ok ⟨1, []⟩
    quote := .ok none
    prepared := .ok ()
    sendTx := .ok ""
    confirmTx := .ok none
    postFetch := .ok ⟨1, []⟩ }

/-- C6 counterexample: `validateSwapRequest` does reject a SOL-to-SOL swap
with "Cannot swap a token to itself", but `executeSwap` never runs that
check: executing the same request on a connected wallet performs the
pre-swap balance fetch and the quote request, so the claim's "no network
call is made before that rejection" is false on the code. -/
theorem swap_self_token_reaches_network_counterexample :
    validateSwapRequest ⟨"SOL", "SOL", "1"⟩ ⟨0, []⟩ =
      ⟨false, some "Cannot swap a token to itself"⟩ ∧
    NetStep.preBalanceFetch ∈ (executeSwap ⟨"SOL", "SOL", "1"⟩ envSelfSwap).2 ∧
    NetStep.quoteRequest ∈ (executeSwap ⟨"SOL", "SOL", "1"⟩ envSelfSwap).2 := by
  refine ⟨rfl, ?_, ?_⟩ <;> decide

/-- C6 amended: validating a SOL-to-SOL swap fails with reason "Cannot
swap a token to itself" (for every wallet snapshot, with no network
access: `validateSwapRequest` is pure), but `executeSwap` itself does not
re-check token distinctness — executing such a request on any connected
wallet reaches both the pre-swap balance fetch and the quote request. -/
theorem swap_self_token_validation_amended :
    (∀ walletData, validateSwapRequest ⟨"SOL", "SOL", "1"⟩ walletData =
      ⟨false, some "Cannot swap a token to itself"⟩) ∧
    (∀ env : SwapEnv, env.connected = true →
      NetStep.preBalanceFetch ∈ (executeSwap ⟨"SOL", "SOL", "1"⟩ env).2 ∧
      NetStep.quoteRequest ∈ (executeSwap ⟨"SOL", "SOL", "1"⟩ env).2) := by
  have hsol : (!supportedTokens.contains "SOL") = false := by decide
  constructor
  · intro walletData
    rfl
  · rintro ⟨c, pre, qu, prep, st, ct, post⟩ hconn
    cases hconn
    unfold executeSwap
    simp only [hsol, Bool.not_true, Bool.false_eq_true, if_false, ite_false]
    rcases qu with msg | oq
    · exact ⟨List.mem_cons_self _ _, List.mem_cons_of_mem _ (List.mem_cons_self _ _)⟩
    · rcases oq with _ | q
      · exact ⟨List.mem_cons_self _ _, List.mem_cons_of_mem _ (List.mem_cons_self _ _)⟩
      · rcases ho : q.outAmount with _ | s
        · simp only [ho]
          exact ⟨List.mem_cons_self _ _, List.mem_cons_of_mem _ (List.mem_cons_self _ _)⟩
        · by_cases hs : (s == "") = true
          · simp only [ho, hs, if_true, ite_true]
            exact ⟨List.mem_cons_self _ _, List.mem_cons_of_mem _ (List.mem_cons_self _ _)⟩
          · simp only [ho, eq_false_of_ne_true hs, if_false, ite_false, Bool.false_eq_true]
            rcases prep with pm | u
            · exact ⟨List.mem_cons_self _ _, List.mem_cons_of_mem _ (List.mem_cons_self _ _)⟩
            · rcases st with sm | sig
              · simp [List.mem_append]
              · rcases ct with cm | ce
                · by_cases hr : confirmErrRecognized cm = true
                  · simp only [hr, if_true, ite_true, snd_ite_pair]
                    simp [List.mem_append]
                  · simp only [eq_false_of_ne_true hr, if_false, ite_false, Bool.false_eq_true]
                    simp [List.mem_append]
                · rcases ce with _ | e
                  · simp only [snd_ite_pair]
                    simp [List.mem_append]
                  · simp [List.mem_append]

/-- C6 amended witness: `swap_self_token_validation_amended` applied to a
concrete wallet snapshot and to `envSelfSwap`. -/
theorem swap_self_token_validation_amended_witness :
    validateSwapRequest ⟨"SOL", "SOL", "1"⟩ ⟨0, []⟩ =
      ⟨false, some "Cannot swap a token to itself"⟩ ∧
    NetStep.preBalanceFetch ∈ (executeSwap ⟨"SOL", "SOL", "1"⟩ envSelfSwap).2 :=
  ⟨swap_self_token_validation_amended.1 ⟨0, []⟩,
   (swap_self_token_validation_amended.2 envSelfSwap rfl).1⟩

end Inteliq

namespace Inteliq

/-! ## TokenTransferService (`src/lib/token-transfer-service.ts`)

The file contains two full copies of the service; following the spec's own
note, the embedding follows the first (defensive) copy, the one with the
rent-reserve check and pre-broadcast simulation.  JavaScript number
rendering inside user-facing messages (template literals such as
`${amount}`) is abstracted by the canonical rendering of the rational;
no theorem reads those message texts. -/

/-- The `details` payload of a transfer response. -/
structure TransferDetails where
  fromAddr : String
  toAddr : String
  amount : ℚ
  token : String
  fee : ℚ
  recommendedAmount : Option ℚ := none
deriving Repr, DecidableEq

/-- The `TransferResponse` interface of the source. -/
structure TransferResponse where
  success : Bool
  message : String
  txId : Option String := none
  explorerUrl : Option String := none
  error : Option String := none
  details : Option TransferDetails := none
deriving Repr, DecidableEq

/-- Result of `connection.simulateTransaction`. -/
structure SimResult where
  err : Option String := none
  logs : List String := []
deriving Repr, DecidableEq

/-- Steps of a transfer run that touch the network (instrumentation; the
spec asks to "verify via a mock connection that records whether
`sendRawTransaction` was called"). -/
inductive TStep where
  | connTest
  | balanceFetch
  | simulate
  | sendRaw
  | confirm
deriving Repr, DecidableEq

/-- Environment of one `transferTokens` run. -/
structure TransferEnv where
  /-- `wallet.connected && wallet.publicKey && wallet.signTransaction`. -/
  connected : Bool
  /-- `wallet.publicKey.toString()`. -/
  senderAddress : String
  /-- Outcome of `new PublicKey(cleanRecipient)` followed by `toBase58()`:
  `none` models the constructor throwing. -/
  canonical : Option String
  /-- Whether the `getRecentBlockhash` connection test succeeds on retry `i`. -/
  connTest : ℕ → Bool
  /-- Outcome of `getBalance` on retry `i` (`none` = throws). -/
  balFetch : ℕ → Option ℤ
  /-- Outcome of `getLatestBlockhash('finalized')`. -/
  blockhash : Except String String
  /-- Outcome of `simulateTransaction`. -/
  simulate : Except String SimResult
  /-- Outcome of `wallet.signTransaction`. -/
  sign : Except String Unit
  /-- Outcome of `sendRawTransaction` (the broadcast: returns the signature). -/
  sendRaw : Except String String
  /-- Outcome of `getBlockHeight`. -/
  blockHeight : Except String ℤ
  /-- Outcome of `confirmTransaction`: thrown message, or `confirmation.value.err`. -/
  confirmT : Except String (Option String)
  /-- Outcome of `TransactionMemoryManager.initializeMemory` (errors swallowed). -/
  memoryInit : Except String Unit

/-- JavaScript `String.prototype.trim` on the whitespace the source meets. -/
def trimChars (cs : List Char) : List Char :=
  ((cs.dropWhile isSpaceChar).reverse.dropWhile isSpaceChar).reverse

/-- The recipient format test `/^[1-9A-HJ-NP-Za-km-z]{32,44}$/i`. -/
def isBase58StrCI (cs : List Char) : Bool :=
  cs.all isBase58CharCI && decide (32 ≤ cs.length) && decide (cs.length ≤ 44)

/-- The retry loop around the `getRecentBlockhash` connection test: did
any of the first `n` attempts succeed? -/
def anyAttempt (t : ℕ → Bool) (n : ℕ) : Bool := (List.range n).any t

/-- The retry loop around `getBalance`: the first successful attempt's
value among the first `n` attempts. -/
def firstAttempt (f : ℕ → Option ℤ) : List ℕ → Option ℤ
  | [] => none
  | i :: is =>
    match f i with
    | some v => some v
    | none => firstAttempt f is

/-- `address.slice(0, 4) + '...' + address.slice(-4)`. -/
def shortAddr (s : String) : String :=
  String.mk (s.toList.take 4) ++ "..." ++ String.mk (s.toList.drop (s.toList.length - 4))

/-- The fixed network fee of the service (0.000005 SOL). -/
def transactionFee : ℚ := 5 / 1000000

/-- The minimum SOL reserve for rent exemption (0.001 SOL). -/
def minSolForRent : ℚ := 1 / 1000

/-- The rent-related marker test of the confirmation error branch. -/
def confirmRentError (e : String) : Bool :=
  strIncludes e "insufficient funds for rent" ||
  strIncludes e "would result in an account not being rent exempt"

/-- `transferSOL`'s `catch` handler: classify the thrown message. -/
def solTransferCatch (msg : String) (details : Option TransferDetails) : TransferResponse :=
  let errorMessage := if msg == "" then "Unknown error" else msg
  if strIncludes errorMessage "insufficient funds for rent" ||
     strIncludes errorMessage "would result in an account not being rent exempt" ||
     strIncludes errorMessage "insufficient lamports" then
    { success := false
      message := "❌ SOL transfer failed: Not enough SOL left for account maintenance. Try sending a smaller amount or keep at least 0.001 SOL in your wallet."
      error := some "INSUFFICIENT_FUNDS_FOR_RENT"
      details := details }
  else if strIncludes errorMessage "failed to send transaction" then
    { success := false
      message := "❌ SOL transfer failed: Network error. Please check your connection and try again."
      error := some "NETWORK_ERROR"
      details := details }
  else if strIncludes errorMessage "Transaction simulation failed" then
    { success := false
      message := "❌ SOL transfer failed: The transaction could not be processed. Please try a smaller amount or try again later."
      error := some "SIMULATION_FAILED"
      details := details }
  else
    { success := false
      message := "❌ SOL transfer failed: " ++ errorMessage
      error := some "SOL_TRANSFER_ERROR"
      details := details }

/-- `TokenTransferService.transferSOL` (first copy: simulation first, then
sign, broadcast and confirm), instrumented with the steps performed. -/
def transferSOL (env : TransferEnv) (recipient : String) (amount : ℚ)
    (details : Option TransferDetails) : TransferResponse × List TStep :=
  match env.blockhash with
  | .error msg => (solTransferCatch msg details, [])
  | .ok _ =>
    -- simulate-before-send; a thrown simulation error is swallowed
    let simStep : Option TransferResponse :=
      match env.simulate with
      | .error _ => none
      | .ok sim =>
        match sim.err with
        | none => none
        | some e =>
          let isRentError := strIncludes e "insufficient funds for rent" ||
            sim.logs.any (fun l => strIncludes l "insufficient funds for rent")
          if isRentError then
            some { success := false
                   message := "❌ Transfer failed: You need to keep at least 0.001 SOL in your wallet for account rent. Try sending a smaller amount."
                   error := some "RENT_EXEMPTION_ERROR"
                   txId := some ""
                   details := details }
          else none
    match simStep with
    | some resp => (resp, [.simulate])
    | none =>
      match env.sign with
      | .error msg => (solTransferCatch msg details, [.simulate])
      | .ok _ =>
        match env.sendRaw with
        | .error msg => (solTransferCatch msg details, [.simulate, .sendRaw])
        | .ok signature =>
          match env.blockHeight with
          | .error msg => (solTransferCatch msg details, [.simulate, .sendRaw])
          | .ok _ =>
            match env.confirmT with
            | .error msg => (solTransferCatch msg details, [.simulate, .sendRaw, .confirm])
            | .ok (some e) =>
              if confirmRentError e then
                ({ success := false
                   message := "❌ SOL transfer failed: Not enough SOL left for account rent. Keep at least 0.001 SOL in your wallet and try again with a smaller amount."
                   error := some "INSUFFICIENT_FUNDS_FOR_RENT"
                   txId := some signature
                   details := details }, [.simulate, .sendRaw, .confirm])
              else
                ({ success := false
                   message := "❌ SOL transfer failed: " ++ e
                   error := some "TRANSACTION_ERROR"
                   txId := some signature
                   details := details }, [.simulate, .sendRaw, .confirm])
            | .ok none =>
              ({ success := true
                 message := "Successfully transferred " ++ toString amount ++ " SOL to wallet " ++ shortAddr recipient
                 txId := some signature
                 explorerUrl := some ("https://explorer.solana.com/tx/" ++ signature)
                 details := details }, [.simulate, .sendRaw, .confirm])

/-- `TokenTransferService.transferSPLToken` (explicitly unimplemented). -/
def transferSPLToken (amount : ℚ) (token : String)
    (details : Option TransferDetails) : TransferResponse × List TStep :=
  ({ success := false
     message := "❌ SPL token transfers are not fully implemented yet. Attempted to send " ++ toString amount ++ " " ++ token
     error := some "NOT_IMPLEMENTED"
     details := details }, [])

/-- `TokenTransferService.transferTokens` (first copy), instrumented with
the network steps it performed. -/
def transferTokens (env : TransferEnv) (recipient : String) (amount : ℚ)
    (token : String) : TransferResponse × List TStep :=
  if !env.connected then
    ({ success := false
       message := "🔐 Wallet is not connected or does not support signing. Please connect your wallet first."
       error := some "WALLET_NOT_CONNECTED" }, [])
  else
    let cleanRecipient := String.mk (trimChars recipient.toList)
    if !isBase58StrCI cleanRecipient.toList then
      ({ success := false
         message := "❌ Invalid Solana address format. Please check the address and try again."
         error := some "INVALID_ADDRESS_FORMAT" }, [])
    else
      match env.canonical with
      | none =>
        ({ success := false
           message := "❌ Invalid Solana address. Please check the address and try again."
           error := some "INVALID_PUBKEY" }, [])
      | some verifiedAddress =>
        -- on a case mismatch the verified (canonical) address is used
        let recipient := if verifiedAddress != cleanRecipient then verifiedAddress else recipient
        if !anyAttempt env.connTest 3 then
          ({ success := false
             message := "❌ Failed to connect to Solana network. Please try again later."
             error := some "NETWORK_ERROR" }, [.connTest])
        else
          match firstAttempt env.balFetch (List.range 3) with
          | none =>
            ({ success := false
               message := "❌ Failed to fetch wallet balance. Please try again later."
               error := some "BALANCE_FETCH_ERROR" }, [.connTest, .balanceFetch])
          | some senderBalance =>
            let senderBalanceInSol : ℚ := (senderBalance : ℚ) / 1000000000
            let mkDetails : Option ℚ → Option TransferDetails := fun rec0 =>
              some { fromAddr := env.senderAddress, toAddr := recipient
                     amount := amount, token := token, fee := transactionFee
                     recommendedAmount := rec0 }
            if token == "SOL" then
              let totalRequired := amount + transactionFee
              let totalRequiredWithRent := amount + transactionFee + minSolForRent
              if senderBalanceInSol < totalRequired then
                ({ success := false
                   message := "❌ Insufficient balance. You need " ++ toFixed totalRequired 6 ++ " SOL (" ++ toString amount ++ " SOL + " ++ toString transactionFee ++ " SOL fee) but have " ++ toFixed senderBalanceInSol 6 ++ " SOL."
                   error := some "INSUFFICIENT_BALANCE"
                   details := mkDetails none }, [.connTest, .balanceFetch])
              else if senderBalanceInSol < totalRequiredWithRent then
                let safeAmount := max 0 (senderBalanceInSol - transactionFee - minSolForRent)
                ({ success := false
                   message := "❌ You need to keep at least " ++ toString minSolForRent ++ " SOL in your wallet for account rent. You can safely send up to " ++ toFixed safeAmount 6 ++ " SOL."
                   error := some "INSUFFICIENT_BALANCE_FOR_RENT"
                   details := mkDetails (some safeAmount) }, [.connTest, .balanceFetch])
              else
                let r := transferSOL env recipient amount (mkDetails none)
                (r.1, [.connTest, .balanceFetch] ++ r.2)
            else
              if senderBalanceInSol < transactionFee + minSolForRent then
                ({ success := false
                   message := "❌ Insufficient SOL for transaction fee and account rent. You need at least " ++ toString (transactionFee + minSolForRent) ++ " SOL but have " ++ toFixed senderBalanceInSol 6 ++ " SOL."
                   error := some "INSUFFICIENT_FEE"
                   details := mkDetails none }, [.connTest, .balanceFetch])
              else
                let r := transferSPLToken amount token (mkDetails none)
                (r.1, [.connTest, .balanceFetch] ++ r.2)

end Inteliq

namespace Inteliq

/-! ## Claims about the transfer service (C3, C4) -/

/-- C3: a SOL transfer whose fetched sender balance (in SOL) is strictly
below `amount + 0.000005` is rejected with `INSUFFICIENT_BALANCE` and the
broadcast step (`sendRawTransaction`) is never reached. -/
theorem transfer_insufficient_balance_no_broadcast
    (env : TransferEnv) (recipient : String) (amount : ℚ)
    (hconn : env.connected = true)
    (hfmt : isBase58StrCI (trimChars recipient.toList) = true)
    (canon : String) (hcanon : env.canonical = some canon)
    (hct : anyAttempt env.connTest 3 = true)
    (lam : ℤ) (hbal : firstAttempt env.balFetch (List.range 3) = some lam)
    (hlow : (lam : ℚ) / 1000000000 < amount + transactionFee) :
    (transferTokens env recipient amount "SOL").1.success = false ∧
    (transferTokens env recipient amount "SOL").1.error = some "INSUFFICIENT_BALANCE" ∧
    TStep.sendRaw ∉ (transferTokens env recipient amount "SOL").2 := by
  have hfmt' := hfmt
  simp only [String.toList] at hfmt'
  unfold transferTokens
  simp only [String.toList, hconn, hfmt', hcanon, hct, hbal, hlow, beq_self_eq_true,
    Bool.not_true, Bool.not_false, if_true, if_false, ite_true, ite_false,
    Bool.false_eq_true, Bool.true_eq_false]
  refine ⟨trivial, trivial, ?_⟩
  decide

/-- Environment witnessing C3: a connected wallet with 100000 lamports
(0.0001 SOL), transferring 0.001 SOL. -/
def envTransferC3 : TransferEnv :=
  { connected := true
    senderAddress := "SenderAddressForTheC3Witness1111"
    canonical := some "AAAAAAAAAAAAAAAAAAAAAAAAAAAAAAAA"
    connTest := fun _ => true
    balFetch := fun _ => some 100000
    blockhash := .ok "bh"
    simulate := .ok ⟨none, []⟩
    sign := .ok ()
    sendRaw := .ok "sigC3"
    blockHeight := .ok 0
    confirmT := .ok none
    memoryInit := .ok () }

/-- C3 witness: `transfer_insufficient_balance_no_broadcast` applied to
`envTransferC3`. -/
theorem transfer_insufficient_balance_no_broadcast_witness :
    (transferTokens envTransferC3 "AAAAAAAAAAAAAAAAAAAAAAAAAAAAAAAA" (1 / 1000) "SOL").1.success = false ∧
    (transferTokens envTransferC3 "AAAAAAAAAAAAAAAAAAAAAAAAAAAAAAAA" (1 / 1000) "SOL").1.error =
      some "INSUFFICIENT_BALANCE" ∧
    TStep.sendRaw ∉ (transferTokens envTransferC3 "AAAAAAAAAAAAAAAAAAAAAAAAAAAAAAAA" (1 / 1000) "SOL").2 :=
  transfer_insufficient_balance_no_broadcast envTransferC3 "AAAAAAAAAAAAAAAAAAAAAAAAAAAAAAAA"
    (1 / 1000) rfl (by decide) "AAAAAAAAAAAAAAAAAAAAAAAAAAAAAAAA" rfl (by decide) 100000 rfl
    (by norm_num [transactionFee])

/-- C4: a SOL transfer whose balance covers `amount + fee` but not
`amount + fee + 0.001` is rejected with `INSUFFICIENT_BALANCE_FOR_RENT`
and `details.recommendedAmount = max 0 (balance - fee - 0.001)`, without
reaching the broadcast step. -/
theorem transfer_rent_reserve_recommended_amount
    (env : TransferEnv) (recipient : String) (amount : ℚ)
    (hconn : env.connected = true)
    (hfmt : isBase58StrCI (trimChars recipient.toList) = true)
    (canon : String) (hcanon : env.canonical = some canon)
    (hct : anyAttempt env.connTest 3 = true)
    (lam : ℤ) (hbal : firstAttempt env.balFetch (List.range 3) = some lam)
    (hge : amount + transactionFee ≤ (lam : ℚ) / 1000000000)
    (hlt : (lam : ℚ) / 1000000000 < amount + transactionFee + minSolForRent) :
    (transferTokens env recipient amount "SOL").1.success = false ∧
    (transferTokens env recipient amount "SOL").1.error = some "INSUFFICIENT_BALANCE_FOR_RENT" ∧
    ((transferTokens env recipient amount "SOL").1.details.map TransferDetails.recommendedAmount) =
      some (some (max 0 ((lam : ℚ) / 1000000000 - transactionFee - minSolForRent))) ∧
    TStep.sendRaw ∉ (transferTokens env recipient amount "SOL").2 := by
  have hge' : ¬ ((lam : ℚ) / 1000000000 < amount + transactionFee) := not_lt.mpr hge
  have hfmt' := hfmt
  simp only [String.toList] at hfmt'
  unfold transferTokens
  simp only [String.toList, hconn, hfmt', hcanon, hct, hbal, hlt, beq_self_eq_true,
    Bool.not_true, Bool.not_false, if_true, if_false, ite_true, ite_false,
    Bool.false_eq_true, Bool.true_eq_false, if_neg hge']
  refine ⟨trivial, trivial, rfl, ?_⟩
  decide

/-- Environment witnessing C4: a connected wallet with 1500000 lamports
(0.0015 SOL), transferring 0.001 SOL — the spec's concrete scenario. -/
def envTransferC4 : TransferEnv :=
  { connected := true
    senderAddress := "SenderAddressForTheC4Witness1111"
    canonical := some "AAAAAAAAAAAAAAAAAAAAAAAAAAAAAAAA"
    connTest := fun _ => true
    balFetch := fun _ => some 1500000
    blockhash := .ok "bh"
    simulate := .ok ⟨none, []⟩
    sign := .ok ()
    sendRaw := .ok "sigC4"
    blockHeight := .ok 0
    confirmT := .ok none
    memoryInit := .ok () }

/-- C4 witness: the spec's concrete scenario — balance 0.0015 SOL, amount
0.001, fee 0.000005 — rejected with `INSUFFICIENT_BALANCE_FOR_RENT` and a
recommended amount of exactly 0.000495 SOL. -/
theorem transfer_rent_reserve_recommended_amount_witness :
    (transferTokens envTransferC4 "AAAAAAAAAAAAAAAAAAAAAAAAAAAAAAAA" (1 / 1000) "SOL").1.success = false ∧
    (transferTokens envTransferC4 "AAAAAAAAAAAAAAAAAAAAAAAAAAAAAAAA" (1 / 1000) "SOL").1.error =
      some "INSUFFICIENT_BALANCE_FOR_RENT" ∧
    ((transferTokens envTransferC4 "AAAAAAAAAAAAAAAAAAAAAAAAAAAAAAAA" (1 / 1000) "SOL").1.details.map
      TransferDetails.recommendedAmount) = some (some (0.000495 : ℚ)) ∧
    TStep.sendRaw ∉ (transferTokens envTransferC4 "AAAAAAAAAAAAAAAAAAAAAAAAAAAAAAAA" (1 / 1000) "SOL").2 := by
  have h := transfer_rent_reserve_recommended_amount envTransferC4
    "AAAAAAAAAAAAAAAAAAAAAAAAAAAAAAAA" (1 / 1000) rfl (by decide)
    "AAAAAAAAAAAAAAAAAAAAAAAAAAAAAAAA" rfl (by decide) 1500000 rfl
    (by norm_num [transactionFee]) (by norm_num [transactionFee, minSolForRent])
  refine ⟨h.1, h.2.1, ?_, h.2.2.2⟩
  rw [h.2.2.1]
  norm_num [transactionFee, minSolForRent]

end Inteliq

namespace Inteliq

/-! ## ConnectionManager (`src/lib/connection-manager.ts`)

The manager owns a fixed endpoint pool, per-endpoint failure counters
(keyed by the endpoint string), a round-robin cursor and the time of the
last request.  `getConnection` is a pure state transformer here, returning
the index of the connection handed out (connections correspond one-to-one
to `rpcEndpoints`, none of which is the empty string). -/

/-- The endpoint pool: the second entry is
`process.env.NEXT_PUBLIC_SOLANA_RPC_URL || "https://api.mainnet-beta.solana.com"`
(an unset or empty variable falls back to the public mainnet URL). -/
def rpcEndpoints (envUrl : Option String) : List String :=
  ["https://mainnet.helius-rpc.com/?api-key=bc153566-8ac2-4019-9c90-e0ef5b840c07",
   (match envUrl with
    | some u => if u == "" then "https://api.mainnet-beta.solana.com" else u
    | none => "https://api.mainnet-beta.solana.com"),
   "https://rpc.ankr.com/solana",
   "https://solana-api.projectserum.com",
   "https://api.mainnet-beta.solana.com"]

/-- The failure threshold `MAX_FAILURES`. -/
def maxFailures : ℕ := 3

/-- The failure-reset window `FAILURE_RESET_TIME` (one minute, in ms). -/
def failureResetTime : ℤ := 60000

/-- The connection manager's mutable state: the string-keyed failure map,
the round-robin cursor and the time of the last request. -/
structure CMState where
  failures : List (String × ℕ)
  currentIndex : ℕ
  lastRequestTime : ℤ
deriving Repr, DecidableEq

/-- `this.endpointFailures.get(endpoint) || 0`. -/
def failCount (st : CMState) (endpoint : String) : ℕ :=
  match st.failures.find? (fun p => p.1 == endpoint) with
  | some p => p.2
  | none => 0

/-- The requested connection priority (the `connectionType` argument). -/
inductive ConnType where
  | default
  | token
  | transaction
deriving Repr, DecidableEq

/-- The `for` loop of the token branch: the first index whose endpoint is
not flagged unreliable for token data and is below the failure threshold. -/
def tokenScan (eps : List String) (st : CMState) : ℕ → Option ℕ
  | 0 => none
  | n + 1 =>
    let i := eps.length - (n + 1)
    match eps.get? i with
    | none => none
    | some endpoint =>
      let isUnreliableForTokens := strIncludes endpoint "api.mainnet-beta.solana.com"
      if !isUnreliableForTokens && failCount st endpoint < maxFailures then some i
      else tokenScan eps st n

/-- The round-robin `for` loop: the first offset `i` (starting at the
cursor) whose endpoint is below the failure threshold, as an absolute
index. -/
def robinScan (eps : List String) (st : CMState) : ℕ → Option ℕ
  | 0 => none
  | n + 1 =>
    let i := eps.length - (n + 1)
    let index := (st.currentIndex + i) % eps.length
    match eps.get? index with
    | none => none
    | some endpoint =>
      if failCount st endpoint < maxFailures then some index
      else robinScan eps st n

/-- `ConnectionManager.getConnection`: resets the failure counters when
the reset window has elapsed, serves token requests from the reliable
endpoints first, otherwise round-robins skipping exhausted endpoints, and
when every endpoint is exhausted clears all counters and returns the first
connection.  Returns the index of the connection handed out together with
the successor state. -/
def getConnection (envUrl : Option String) (connectionType : Option ConnType)
    (now : ℤ) (st : CMState) : ℕ × CMState :=
  let eps := rpcEndpoints envUrl
  let st := if now - st.lastRequestTime > failureResetTime then
    { st with failures := [] } else st
  let st := { st with lastRequestTime := now }
  let tokenPick : Option ℕ :=
    if connectionType == some ConnType.token then
      if strIncludes (eps.headD "") "helius" &&
         failCount st (eps.headD "") < maxFailures then some 0
      else tokenScan eps st eps.length
    else none
  match tokenPick with
  | some i => (i, st)
  | none =>
    match robinScan eps st eps.length with
    | some index => (index, { st with currentIndex := (index + 1) % eps.length })
    | none => (0, { st with failures := [], currentIndex := 1 })

/-- `ConnectionManager.markFailure`. -/
def markFailure (st : CMState) (endpoint : String) : CMState :=
  let failures := failCount st endpoint + 1
  { st with failures :=
      if st.failures.any (fun p => p.1 == endpoint) then
        st.failures.map (fun p => if p.1 == endpoint then (endpoint, failures) else p)
      else st.failures ++ [(endpoint, failures)] }

/-- `ConnectionManager.markSuccess`. -/
def markSuccess (st : CMState) (endpoint : String) : CMState :=
  { st with failures :=
      if st.failures.any (fun p => p.1 == endpoint) then
        st.failures.map (fun p => if p.1 == endpoint then (endpoint, 0) else p)
      else st.failures ++ [(endpoint, 0)] }

end Inteliq

namespace Inteliq

/-! ## Claim about the connection manager (C5) -/


/-- The pool always holds five connections. -/
theorem length_rpcEndpoints (envUrl : Option String) : (rpcEndpoints envUrl).length = 5 := by
  simp [rpcEndpoints]

/-- When the reset window has not elapsed, `getConnection` only stamps the
request time before choosing a connection. -/
theorem getConnection_no_reset (envUrl : Option String) (connectionType : Option ConnType)
    (now : ℤ) (st : CMState)
    (hwin : now - st.lastRequestTime ≤ failureResetTime) :
    getConnection envUrl connectionType now st =
      (let eps := rpcEndpoints envUrl
       let st1 : CMState := { st with lastRequestTime := now }
       let tokenPick : Option ℕ :=
         if connectionType == some ConnType.token then
           if strIncludes (eps.headD "") "helius" &&
              failCount st1 (eps.headD "") < maxFailures then some 0
           else tokenScan eps st1 eps.length
         else none
       match tokenPick with
       | some i => (i, st1)
       | none =>
         match robinScan eps st1 eps.length with
         | some index => (index, { st1 with currentIndex := (index + 1) % eps.length })
         | none => (0, { st1 with failures := [], currentIndex := 1 })) := by
  have hnoclear : ¬ (now - st.lastRequestTime > failureResetTime) := not_lt.mpr hwin
  unfold getConnection
  rw [if_neg hnoclear]

/-- A hit of the token loop is an endpoint below the failure threshold. -/
theorem tokenScan_lt (eps : List String) (st : CMState) (n i : ℕ)
    (h : tokenScan eps st n = some i) :
    ∃ e, eps.get? i = some e ∧ failCount st e < maxFailures := by
  induction n with
  | zero => simp [tokenScan] at h
  | succ n ih =>
    rw [tokenScan] at h
    rcases hg : eps.get? (eps.length - (n + 1)) with _ | e
    · rw [hg] at h; exact absurd h (by simp)
    · rw [hg] at h
      dsimp only at h
      by_cases hc : (!strIncludes e "api.mainnet-beta.solana.com" &&
          decide (failCount st e < maxFailures)) = true
      · rw [if_pos hc] at h
        obtain ⟨-, h2⟩ := Bool.and_eq_true_iff.mp hc
        exact ⟨e, by rw [← Option.some_inj.mp h]; exact hg, of_decide_eq_true h2⟩
      · rw [if_neg hc] at h
        exact ih h

/-- A hit of the round-robin loop is an endpoint below the failure
threshold. -/
theorem robinScan_lt (eps : List String) (st : CMState) (n i : ℕ)
    (h : robinScan eps st n = some i) :
    ∃ e, eps.get? i = some e ∧ failCount st e < maxFailures := by
  induction n with
  | zero => simp [robinScan] at h
  | succ n ih =>
    rw [robinScan] at h
    rcases hg : eps.get? ((st.currentIndex + (eps.length - (n + 1))) % eps.length) with _ | e
    · rw [hg] at h; exact absurd h (by simp)
    · rw [hg] at h
      dsimp only at h
      by_cases hc : failCount st e < maxFailures
      · rw [if_pos hc] at h
        exact ⟨e, by rw [← Option.some_inj.mp h]; exact hg, hc⟩
      · rw [if_neg hc] at h
        exact ih h

/-- With every endpoint at the threshold the token loop finds nothing. -/
theorem tokenScan_none_of_ge (eps : List String) (st : CMState)
    (hall : ∀ e ∈ eps, maxFailures ≤ failCount st e) (n : ℕ) :
    tokenScan eps st n = none := by
  induction n with
  | zero => rfl
  | succ n ih =>
    rw [tokenScan]
    rcases hg : eps.get? (eps.length - (n + 1)) with _ | e
    · rfl
    · dsimp only
      have he : e ∈ eps := List.get?_mem hg
      have hnl : ¬ (failCount st e < maxFailures) := not_lt.mpr (hall e he)
      rw [if_neg (by simp [hnl])]
      exact ih

/-- With every endpoint at the threshold the round-robin loop finds
nothing. -/
theorem robinScan_none_of_ge (eps : List String) (st : CMState)
    (hall : ∀ e ∈ eps, maxFailures ≤ failCount st e) (n : ℕ) :
    robinScan eps st n = none := by
  induction n with
  | zero => rfl
  | succ n ih =>
    rw [robinScan]
    rcases hg : eps.get? ((st.currentIndex + (eps.length - (n + 1))) % eps.length) with _ | e
    · rfl
    · dsimp only
      have he : e ∈ eps := List.get?_mem hg
      rw [if_neg (not_lt.mpr (hall e he))]
      exact ih

/-- The rotating cursor visits every index: shifting by the cursor is
surjective modulo the pool size. -/
theorem mod_shift_surj (cur len j : ℕ) (hlen : 0 < len) (hj : j < len) :
    ∃ i, i < len ∧ (cur + i) % len = j := by
  have hr : cur % len < len := Nat.mod_lt _ hlen
  by_cases hjr : cur % len ≤ j
  · have hi : j - cur % len < len := by omega
    refine ⟨j - cur % len, hi, ?_⟩
    rw [Nat.add_mod, Nat.mod_eq_of_lt hi, Nat.add_sub_cancel' hjr, Nat.mod_eq_of_lt hj]
  · have hi : len + j - cur % len < len := by omega
    refine ⟨len + j - cur % len, hi, ?_⟩
    rw [Nat.add_mod, Nat.mod_eq_of_lt hi]
    have h1 : cur % len + (len + j - cur % len) = len + j := by omega
    rw [h1, Nat.add_mod_left, Nat.mod_eq_of_lt hj]

/-- If the round-robin loop finds nothing, every endpoint it scanned is at
the failure threshold. -/
theorem robinScan_none_all_ge (eps : List String) (st : CMState) (n : ℕ) (hn : n ≤ eps.length)
    (h : robinScan eps st n = none) :
    ∀ i, eps.length - n ≤ i → i < eps.length →
      ∀ e, eps.get? ((st.currentIndex + i) % eps.length) = some e →
        maxFailures ≤ failCount st e := by
  induction n with
  | zero => intro i h1 h2; omega
  | succ n ih =>
    rw [robinScan] at h
    intro i h1 h2 e hg
    by_cases hi : i = eps.length - (n + 1)
    · subst hi
      rw [hg] at h
      dsimp only at h
      by_cases hc : failCount st e < maxFailures
      · rw [if_pos hc] at h; exact absurd h (by simp)
      · exact not_lt.mp hc
    · rcases hg0 : eps.get? ((st.currentIndex + (eps.length - (n + 1))) % eps.length) with _ | e0
      · have hmod : (st.currentIndex + (eps.length - (n + 1))) % eps.length < eps.length :=
          Nat.mod_lt _ (by omega)
        have := List.get?_eq_none.mp hg0
        omega
      · rw [hg0] at h
        dsimp only at h
        have hrec : robinScan eps st n = none := by
          by_cases hc : failCount st e0 < maxFailures
          · rw [if_pos hc] at h; exact absurd h (by simp)
          · rw [if_neg hc] at h; exact h
        exact ih (by omega) hrec i (by omega) h2 e hg

/-- The round-robin loop succeeds as soon as one endpoint is healthy. -/
theorem robinScan_some_of_exists (eps : List String) (st : CMState)
    (hex : ∃ e ∈ eps, failCount st e < maxFailures) :
    robinScan eps st eps.length ≠ none := by
  intro hnone
  obtain ⟨e0, he0, hlt⟩ := hex
  obtain ⟨j, hj⟩ := List.get?_of_mem he0
  have hjlen : j < eps.length := by
    by_contra hge
    rw [List.get?_eq_none.mpr (not_lt.mp hge)] at hj
    exact absurd hj (by simp)
  obtain ⟨i, hilen, hieq⟩ :=
    mod_shift_surj st.currentIndex eps.length j (by omega) hjlen
  have := robinScan_none_all_ge eps st eps.length le_rfl hnone i (by omega) hilen e0
    (by rw [hieq]; exact hj)
  omega

/-- C5: once an endpoint has 3 recorded failures, `getConnection` does not
hand out that endpoint again while the 60-second reset window has not
elapsed — unless every endpoint is simultaneously at the threshold, in
which case it clears all failure counters and returns the first
connection instead of throwing. -/
theorem getConnection_skips_failed_endpoint
    (envUrl : Option String) (connectionType : Option ConnType) (now : ℤ) (st : CMState)
    (a : String)
    (ha : maxFailures ≤ failCount st a)
    (hwin : now - st.lastRequestTime ≤ failureResetTime) :
    ((∃ e ∈ rpcEndpoints envUrl, failCount st e < maxFailures) →
      ∀ e, (rpcEndpoints envUrl).get? (getConnection envUrl connectionType now st).1 = some e →
        e ≠ a) ∧
    ((∀ e ∈ rpcEndpoints envUrl, maxFailures ≤ failCount st e) →
      (getConnection envUrl connectionType now st).1 = 0 ∧
      (getConnection envUrl connectionType now st).2.failures = []) := by
  have hchar := getConnection_no_reset envUrl connectionType now st hwin
  set eps := rpcEndpoints envUrl with heps
  set st1 : CMState := { st with lastRequestTime := now } with hst1
  have hfc : ∀ e, failCount st1 e = failCount st e := fun _ => rfl
  have hlen : eps.length = 5 := length_rpcEndpoints envUrl
  constructor
  · -- some endpoint is still healthy: the returned endpoint has a low count
    intro hex e hge
    have hex1 : ∃ e ∈ eps, failCount st1 e < maxFailures := by
      obtain ⟨e0, he0, h0⟩ := hex
      exact ⟨e0, he0, by rw [hfc]; exact h0⟩
    suffices hlow : failCount st e < maxFailures by
      intro heq
      rw [heq] at hlow
      omega
    rw [hchar] at hge
    dsimp only at hge
    by_cases htok : (connectionType == some ConnType.token) = true
    · rw [if_pos htok] at hge
      by_cases hhel : (strIncludes (eps.headD "") "helius" &&
          decide (failCount st1 (eps.headD "") < maxFailures)) = true
      · rw [if_pos hhel] at hge
        dsimp only at hge
        obtain ⟨-, h2⟩ := Bool.and_eq_true_iff.mp hhel
        have h2' := of_decide_eq_true h2
        have hhead : eps.headD "" = e := by
          rcases hE : eps with _ | ⟨x, xs⟩
          · rw [hE] at hge
            exact absurd hge (by simp)
          · rw [hE] at hge
            rw [List.get?_cons_zero] at hge
            simp only [List.headD]
            exact Option.some_inj.mp hge
        rw [hhead] at h2'
        rw [← hfc]
        exact h2'
      · rw [if_neg hhel] at hge
        rcases hts : tokenScan eps st1 eps.length with _ | i
        · rw [hts] at hge
          dsimp only at hge
          rcases hrb : robinScan eps st1 eps.length with _ | idx
          · exact absurd hrb (robinScan_some_of_exists eps st1 hex1)
          · rw [hrb] at hge
            dsimp only at hge
            obtain ⟨e', hge', hlt'⟩ := robinScan_lt eps st1 eps.length idx hrb
            rw [hge'] at hge
            rw [← hfc, ← Option.some_inj.mp hge]
            exact hlt'
        · rw [hts] at hge
          dsimp only at hge
          obtain ⟨e', hge', hlt'⟩ := tokenScan_lt eps st1 eps.length i hts
          rw [hge'] at hge
          rw [← hfc, ← Option.some_inj.mp hge]
          exact hlt'
    · rw [if_neg htok] at hge
      dsimp only at hge
      rcases hrb : robinScan eps st1 eps.length with _ | idx
      · exact absurd hrb (robinScan_some_of_exists eps st1 hex1)
      · rw [hrb] at hge
        dsimp only at hge
        obtain ⟨e', hge', hlt'⟩ := robinScan_lt eps st1 eps.length idx hrb
        rw [hge'] at hge
        rw [← hfc, ← Option.some_inj.mp hge]
        exact hlt'
  · -- all endpoints exhausted: counters cleared, first connection returned
    intro hall
    have hall1 : ∀ e ∈ eps, maxFailures ≤ failCount st1 e := fun e he => by
      rw [hfc]; exact hall e he
    have hhead : eps.headD "" ∈ eps := by
      cases hps : eps with
      | nil => rw [hps] at hlen; simp at hlen
      | cons x xs => exact List.mem_cons_self x xs
    have hhel2 : ¬ ((strIncludes (eps.headD "") "helius" &&
        decide (failCount st1 (eps.headD "") < maxFailures)) = true) := by
      intro hcon
      obtain ⟨-, h2⟩ := Bool.and_eq_true_iff.mp hcon
      have := of_decide_eq_true h2
      have := hall1 _ hhead
      omega
    have hts := tokenScan_none_of_ge eps st1 hall1 eps.length
    have hrb := robinScan_none_of_ge eps st1 hall1 eps.length
    rw [hchar]
    dsimp only
    by_cases htok : (connectionType == some ConnType.token) = true
    · rw [if_pos htok, if_neg hhel2, hts, hrb]
      exact ⟨rfl, rfl⟩
    · rw [if_neg htok, hrb]
      exact ⟨rfl, rfl⟩

end Inteliq

namespace Inteliq

/-- State witnessing C5: the Ankr endpoint has reached the threshold,
Helius is healthy, the window has not elapsed. -/
def stC5 : CMState :=
  { failures := [("https://rpc.ankr.com/solana", 3)]
    currentIndex := 0
    lastRequestTime := 0 }

/-- C5 witness: `getConnection_skips_failed_endpoint` applied to `stC5`
at time 1000 — the connection handed out is Helius, not the exhausted
Ankr endpoint. -/
theorem getConnection_skips_failed_endpoint_witness :
    maxFailures ≤ failCount stC5 "https://rpc.ankr.com/solana" ∧
    (1000 : ℤ) - stC5.lastRequestTime ≤ failureResetTime ∧
    (rpcEndpoints none).get? (getConnection none none 1000 stC5).1 =
      some "https://mainnet.helius-rpc.com/?api-key=bc153566-8ac2-4019-9c90-e0ef5b840c07" ∧
    "https://mainnet.helius-rpc.com/?api-key=bc153566-8ac2-4019-9c90-e0ef5b840c07" ≠
      "https://rpc.ankr.com/solana" :=
  ⟨by decide, by decide, by decide,
   (getConnection_skips_failed_endpoint none none 1000 stC5 "https://rpc.ankr.com/solana"
      (by decide) (by decide)).1
     ⟨"https://mainnet.helius-rpc.com/?api-key=bc153566-8ac2-4019-9c90-e0ef5b840c07",
      by decide, by decide⟩
     "https://mainnet.helius-rpc.com/?api-key=bc153566-8ac2-4019-9c90-e0ef5b840c07"
     (by decide)⟩

end Inteliq

namespace Inteliq

/-! ## WalletDataProvider (`src/lib/wallet-data-provider.ts`)

The provider fetches the native balance and the token holdings with a
tiered strategy (Helius indexed API, then raw token-account enumeration),
values them best-effort through a price service, and caches snapshots.
Every tier swallows its own errors, so the provider never throws: the
retry loop of `getWalletData` never sees an exception, and its
`catch`-side fallback object (the one with `usdValue: 0`) is unreachable.
External calls are an explicit environment; the two caches are passed as
optional `(data, timestamp)` entries together with the current time. -/

/-- The wrapped-SOL sentinel mint. -/
def wsolMint : String := "So11111111111111111111111111111111111111112"

/-- The priority-token mint list of the source (declared there, unused by
the fetch logic). -/
def priorityTokens : List String :=
  [wsolMint,
   "EPjFWdd5AufqSSqeM2qN1xzybapC8G4wEGGkZwyTDt1v",
   "Es9vMFrzaCERmJfrF4H2FYD4KCoNkY11McCe8BenwNYB"]

/-- The built-in `TOKEN_METADATA` mint lookup: symbol, name, decimals. -/
def tokenMetadata (mint : String) : Option (String × String × ℕ) :=
  if mint == "EPjFWdd5AufqSSqeM2qN1xzybapC8G4wEGGkZwyTDt1v" then some ("USDC", "USD Coin", 6)
  else if mint == "Es9vMFrzaCERmJfrF4H2FYD4KCoNkY11McCe8BenwNYB" then some ("USDT", "Tether USD", 6)
  else if mint == "8XSsNvaKU9YFST592D8p6JcX5sbJBqxz1Yu3xNGTmqNE" then some ("BONK", "Bonk", 5)
  else if mint == "JUPyiwrYJFskUPiHa7hkeR8VUtAeFoSYbKedZNsDvCN" then some ("JUP", "Jupiter", 6)
  else if mint == "EKpQGSJtjMFqKZ9KQanSqYXRcF8fBopzLHYxdM65zcjm" then some ("WIF", "Dogwifhat", 9)
  else if mint == "DezXAZ8z7PnrnRJjz3wXBoRgixCa6xjnB7YaB1pPB263" then some ("BONK", "Bonk", 5)
  else if mint == wsolMint then some ("SOL", "Solana", 9)
  else none

/-- One token entry as the provider builds it. -/
structure ProvToken where
  symbol : String
  name : String
  balance : ℚ
  usdValue : Option ℚ
  mint : String
  decimals : ℕ
  logo : Option String := none
deriving Repr, DecidableEq

/-- A wallet snapshot as returned by `getWalletData`. -/
structure Snapshot where
  solBalance : ℚ
  tokens : List ProvToken
  totalValueUsd : ℚ
deriving Repr, DecidableEq

/-- One holding as the Helius `getTokenAccounts` call reports it
(`amount` is already the parsed number; metadata fields may be absent). -/
structure HeliusToken where
  mint : String
  amount : ℚ
  symbol : Option String := none
  nameMeta : Option String := none
  decimals : ℕ := 0
  logoURI : Option String := none
deriving Repr, DecidableEq

/-- One parsed token account as `getParsedTokenAccountsByOwner` reports
it. -/
structure RpcAcct where
  mint : String
  uiAmount : ℚ
  decimals : ℕ
deriving Repr, DecidableEq

/-- Environment of one provider run: the outcome of each external call.
The Helius error case covers a non-ok HTTP response and a missing
`data.result` alike (both throw inside the same inner `try`). -/
structure WDPEnv where
  solBal : Except String ℤ
  price : String → Except String (Option ℚ)
  helius : Except String (List HeliusToken)
  rpcAccts : Except String (List RpcAcct)

/-- `meta.symbol || 'Unknown'`: falsy-defaulting field read. -/
def strFalsyD (o : Option String) (d : String) : String :=
  match o with
  | some s => if s == "" then d else s
  | none => d

/-- The value round-trip `Number(x.toFixed(4))` (round to 4 decimals). -/
def jsRound4 (x : ℚ) : ℚ :=
  if x < 0 then -((toFixedInt (-x) 4 : ℚ) / 10 ^ 4)
  else (toFixedInt x 4 : ℚ) / 10 ^ 4

/-- `await getTokenPrice(symbol)` guarded by `if (price)`: a thrown error
is swallowed, `null` and a zero price are both falsy. -/
def priceTruthy (env : WDPEnv) (symbol : String) : Option ℚ :=
  match env.price symbol with
  | .ok (some p) => if p == 0 then none else some p
  | .ok none => none
  | .error _ => none

/-- `WalletDataProvider.getSolBalance`: lamports to SOL rounded to 4
decimals; any error yields 0. -/
def getSolBalance (env : WDPEnv) : ℚ :=
  match env.solBal with
  | .ok balance => jsRound4 ((balance : ℚ) / 1000000000)
  | .error _ => 0

/-- `WalletDataProvider.getTokens`: the SOL pseudo-token first, then the
Helius tier, then raw enumeration with the metadata table, then a
parallel best-effort price fill.  `cachedTokens` is the `tokens:`-keyed
cache entry, `now` the current time. -/
def getTokens (env : WDPEnv) (cachedTokens : Option (List ProvToken × ℤ))
    (now : ℤ) : List ProvToken :=
  match cachedTokens with
  | some (data, ts) =>
    if now - ts < 15000 then data else getTokensFresh env
  | none => getTokensFresh env
where
  /-- The cache-miss path of `getTokens`. -/
  getTokensFresh (env : WDPEnv) : List ProvToken :=
    let solBalance := getSolBalance env
    let solUsdValue := (priceTruthy env "SOL").map (fun p => solBalance * p)
    let tokens0 : List ProvToken :=
      [⟨"SOL", "Solana", solBalance, solUsdValue, wsolMint, 9, none⟩]
    -- first attempt: the Helius token API
    let heliusStep : List ProvToken × Bool :=
      match env.helius with
      | .error _ => (tokens0, false)
      | .ok result =>
        if result.isEmpty then (tokens0, false)
        else
          let heliusTokens := (result.filter (fun item => 0 < item.amount)).map
            (fun item => (⟨strFalsyD item.symbol "Unknown",
                           strFalsyD item.nameMeta "Unknown Token",
                           item.amount, none, item.mint, item.decimals,
                           item.logoURI⟩ : ProvToken))
          if 0 < heliusTokens.length then
            (tokens0 ++ heliusTokens.filter (fun t => t.mint != wsolMint), true)
          else (tokens0, false)
    -- second attempt: standard RPC enumeration (errors caught and logged)
    let tokens2 : List ProvToken :=
      if heliusStep.2 then heliusStep.1
      else
        match env.rpcAccts with
        | .error _ => heliusStep.1
        | .ok accts =>
          heliusStep.1 ++ accts.filterMap (fun acct =>
            if acct.uiAmount == 0 then none
            else if acct.mint == wsolMint then none
            else
              let meta := tokenMetadata acct.mint
              let symbol := match meta with | some m => m.1 | none => "Unknown"
              let tokName := match meta with | some m => m.2.1 | none => "Unknown Token"
              let decimals := match meta with | some m => m.2.2 | none => acct.decimals
              -- enhanced recognition for USDC/USDT when still unknown
              -- (unreachable for these mints, which the table already has)
              let triple : String × String × ℕ :=
                if symbol == "Unknown" then
                  if acct.mint == "EPjFWdd5AufqSSqeM2qN1xzybapC8G4wEGGkZwyTDt1v" then
                    ("USDC", "USD Coin", 6)
                  else if acct.mint == "Es9vMFrzaCERmJfrF4H2FYD4KCoNkY11McCe8BenwNYB" then
                    ("USDT", "Tether USD", 6)
                  else (symbol, tokName, decimals)
                else (symbol, tokName, decimals)
              let usdValue :=
                if triple.1 != "Unknown" then
                  (priceTruthy env triple.1).map (fun p => acct.uiAmount * p)
                else none
              some ⟨triple.1, triple.2.1, acct.uiAmount, usdValue, acct.mint,
                    triple.2.2, none⟩)
    -- parallel price fill for tokens still lacking a USD value
    tokens2.map (fun token =>
      if token.usdValue == none && token.symbol != "Unknown" then
        match priceTruthy env token.symbol with
        | some p => { token with usdValue := some (token.balance * p) }
        | none => token
      else token)

/-- `WalletDataProvider.getWalletData`: serve a fresh cache entry, bail
out on an empty address, otherwise fetch balance and tokens and sum the
truthy USD values.  The body of the retry loop cannot throw (both helpers
swallow their errors), so the first attempt always returns and the
max-retries fallback literal of the source is dead code. -/
def getWalletData (env : WDPEnv) (cacheWallet : Option (Snapshot × ℤ))
    (cachedTokens : Option (List ProvToken × ℤ)) (now : ℤ)
    (walletAddress : String) : Snapshot :=
  match cacheWallet with
  | some (data, ts) =>
    if now - ts < 5000 then data
    else getWalletDataFresh env cachedTokens now walletAddress
  | none => getWalletDataFresh env cachedTokens now walletAddress
where
  /-- The cache-miss path of `getWalletData`. -/
  getWalletDataFresh (env : WDPEnv) (cachedTokens : Option (List ProvToken × ℤ))
      (now : ℤ) (walletAddress : String) : Snapshot :=
    if walletAddress == "" then ⟨0, [], 0⟩
    else
      let solBalance := getSolBalance env
      let tokens := getTokens env cachedTokens now
      let totalValueUsd := tokens.foldl (fun acc token =>
        match token.usdValue with
        | some v => if v == 0 then acc else acc + v
        | none => acc) 0
      ⟨solBalance, tokens, totalValueUsd⟩

end Inteliq

namespace Inteliq

/-! ## Claim about the wallet-data provider (C7) -/

/-- Did this external call throw? -/
def isErr {α : Type} : Except String α → Bool
  | .error _ => true
  | .ok _ => false

/-- A price lookup whose call throws yields no truthy price. -/
theorem priceTruthy_of_err (env : WDPEnv) (s : String)
    (h : isErr (env.price s) = true) : priceTruthy env s = none := by
  unfold priceTruthy
  rcases hp : env.price s with m | v
  · rfl
  · rw [hp] at h; simp [isErr] at h

/-- Environment in which every external call of the provider fails. -/
def envWdpFail : WDPEnv :=
  { solBal := .error "Failed to fetch"
    price := fun _ => .error "Failed to fetch"
    helius := .error "Failed to fetch"
    rpcAccts := .error "Failed to fetch" }

/-- C7 counterexample: on total provider failure the degraded snapshot
does contain exactly the native SOL pseudo-token with balance 0 and has
`solBalance = totalValueUsd = 0` — but that token's `usdValue` is `null`
(unknown), not `0` as the claim states.  (The `usdValue: 0` fallback
literal of the source sits in the retry loop's catch branch, which is
unreachable because the helpers swallow their own errors.) -/
theorem wallet_degraded_usd_unknown_counterexample :
    getWalletData envWdpFail none none 0 "7xKXtg2CW87d97TXJSDpbD5jBkheTqA83TZRuJosgAsU" =
      ⟨0, [⟨"SOL", "Solana", 0, none, wsolMint, 9, none⟩], 0⟩ ∧
    (getWalletData envWdpFail none none 0 "7xKXtg2CW87d97TXJSDpbD5jBkheTqA83TZRuJosgAsU").tokens.map
      ProvToken.usdValue = [none] ∧
    (getWalletData envWdpFail none none 0 "7xKXtg2CW87d97TXJSDpbD5jBkheTqA83TZRuJosgAsU").tokens.map
      ProvToken.usdValue ≠ [some 0] := by
  refine ⟨?_, ?_, ?_⟩ <;> decide

/-- C7 amended: for every address (nonempty; the empty string short-cuts
to an empty snapshot) and an uncached run in which every external call
fails, `getWalletData` does not throw (it is total) and returns the
degraded snapshot with `solBalance = 0`, `totalValueUsd = 0` and exactly
one token — the native SOL pseudo-token with balance 0 and **unknown**
(`null`) `usdValue`, produced by the first attempt rather than by the
max-retries fallback. -/
theorem wallet_data_total_failure_degraded
    (env : WDPEnv) (now : ℤ) (walletAddress : String)
    (hsol : isErr env.solBal = true)
    (hprice : ∀ s, isErr (env.price s) = true)
    (hhel : isErr env.helius = true)
    (hrpc : isErr env.rpcAccts = true)
    (haddr : (walletAddress == "") = false) :
    getWalletData env none none now walletAddress =
      ⟨0, [⟨"SOL", "Solana", 0, none, wsolMint, 9, none⟩], 0⟩ := by
  have hp : ∀ s, priceTruthy env s = none := fun s => priceTruthy_of_err env s (hprice s)
  obtain ⟨sb, pr, he, ra⟩ := env
  rcases sb with m1 | v1
  case ok => simp [isErr] at hsol
  rcases he with m3 | v3
  case ok => simp [isErr] at hhel
  rcases ra with m4 | v4
  case ok => simp [isErr] at hrpc
  show getWalletData.getWalletDataFresh ⟨.error m1, pr, .error m3, .error m4⟩ none now
    walletAddress = _
  unfold getWalletData.getWalletDataFresh
  rw [if_neg (by simp_all)]
  simp only [getSolBalance, getTokens, getTokens.getTokensFresh, hp]
  rfl

/-- C7 witness: `wallet_data_total_failure_degraded` applied to
`envWdpFail` and a concrete address. -/
theorem wallet_data_total_failure_degraded_witness :
    getWalletData envWdpFail none none 42 "9WzDXwBbmkg8ZTbNMqUxvQRAyrZzDsGYdLVL9zYtAWWM" =
      ⟨0, [⟨"SOL", "Solana", 0, none, wsolMint, 9, none⟩], 0⟩ :=
  wallet_data_total_failure_degraded envWdpFail 42
    "9WzDXwBbmkg8ZTbNMqUxvQRAyrZzDsGYdLVL9zYtAWWM" rfl (fun _ => rfl) rfl rfl (by decide)

end Inteliq

namespace Inteliq

/-! ## A small backtracking pattern engine

The intent classifier of `src/lib/services/ai-wallet-service.ts` and the
amount/token extraction of `src/lib/transfer-command-parser.ts` are
JavaScript regexes.  Each regex is compiled here into a matcher over
character lists.  A matcher returns, for one starting position, the list
of possible `(capture, rest-of-input)` outcomes in the engine's
backtracking priority order (alternatives in written order, quantifiers
greedy), so the head of the list is the match JavaScript reports;
`searchFirst` scans starting positions left to right, which is exactly
the leftmost-match rule. -/

/-- A matcher at one position: priority-ordered outcomes. -/
abbrev M (α : Type) := List Char → List (α × List Char)

/-- The empty pattern, yielding a capture. -/
def mpure {α : Type} (a : α) : M α := fun s => [(a, s)]

/-- Sequencing with capture passing. -/
def mbind {α β : Type} (m : M α) (f : α → M β) : M β :=
  fun s => (m s).flatMap (fun p => f p.1 p.2)

/-- Map over the capture. -/
def mmap {α β : Type} (f : α → β) (m : M α) : M β :=
  fun s => (m s).map (fun p => (f p.1, p.2))

/-- A case-insensitive literal. -/
def mlit (w : List Char) : M Unit :=
  fun s => if leadsWithCI w s then [((), s.drop w.length)] else []

/-- A case-insensitive literal, from a string. -/
def mstr (w : String) : M Unit := mlit w.toList

/-- Ordered alternation `(a|b|...)`. -/
def malt {α : Type} (ms : List (M α)) : M α :=
  fun s => ms.flatMap (fun m => m s)

/-- Greedy option `(...)?` (with-branch first). -/
def mopt (m : M Unit) : M Unit := fun s => m s ++ [((), s)]

/-- Greedy counted character class `[p]{lo,hi}`, capturing the consumed
run: candidates from the longest feasible length down to `lo`. -/
def mcls (p : Char → Bool) (lo hi : ℕ) : M (List Char) :=
  fun s =>
    let run := (s.takeWhile p).take hi
    ((List.range (run.length + 1)).reverse).filterMap (fun k =>
      if lo ≤ k then some (s.take k, s.drop k) else none)

/-- Greedy unbounded class `[p]+` (`lo = 1`) or `[p]*` (`lo = 0`): like
`mcls` with no upper bound, so the run is not capped. -/
def mclsU (p : Char → Bool) (lo : ℕ) : M (List Char) :=
  fun s =>
    let run := s.takeWhile p
    ((List.range (run.length + 1)).reverse).filterMap (fun k =>
      if lo ≤ k then some (s.take k, s.drop k) else none)

/-- Sequence two patterns, keeping the second capture. -/
def seqR {α : Type} (a : M Unit) (b : M α) : M α := mbind a (fun _ => b)

/-- Sequence two patterns, keeping the first capture. -/
def seqL {α : Type} (a : M α) (b : M Unit) : M α :=
  mbind a (fun x => mbind b (fun _ => mpure x))

/-- Leftmost search: the first starting position with an outcome wins,
and the engine's first outcome there is the reported match. -/
def searchFirst {α : Type} (m : M α) : List Char → Option α
  | [] => ((m []).head?).map Prod.fst
  | c :: t =>
    match (m (c :: t)).head? with
    | some p => some p.1
    | none => searchFirst m t

/-- Anchored test (`^...`): does the pattern match at the start? -/
def anchoredTest {α : Type} (m : M α) (s : List Char) : Bool := !(m s).isEmpty

/-- Fully anchored test (`^...$`): some outcome consumes the whole
input. -/
def fullTest {α : Type} (m : M α) (s : List Char) : Bool :=
  (m s).any (fun p => p.2.isEmpty)

/-- Try patterns in order, searching the whole text with each — the
`for (const pattern of patterns)` loops of the classifier. -/
def firstHit {α : Type} : List (M α) → List Char → Option α
  | [], _ => none
  | m :: rest, s =>
    match searchFirst m s with
    | some a => some a
    | none => firstHit rest s

end Inteliq

namespace Inteliq

/-! ## AIWalletService.parseRequest (`src/lib/services/ai-wallet-service.ts`)

The classifier's regex cascade, compiled pattern by pattern.  Greeting and
help-query patterns are anchored and tested against the lower-cased
request; the rest carry the `i` flag and are searched over the original
text, in the source's order: history → balance → meme → price → send →
swap. -/

/-- The classifier's intent variants. -/
inductive AIAction where
  | send
  | swap
  | balance
  | history
  | price
  | meme
  | greeting
  | helpQuery
deriving Repr, DecidableEq

/-- The classifier's structured result. -/
structure AIIntent where
  action : AIAction
  amount : Option String := none
  fromToken : Option String := none
  toToken : Option String := none
  recipient : Option String := none
  symbol : Option String := none
  address : Option String := none
deriving Repr, DecidableEq

/-- One or more whitespace characters, `\s+`. -/
def spacesPlus : M Unit := mmap (fun _ => ()) (mclsU isSpaceChar 1)

/-- `what'?s`. -/
def whatAposS : M Unit :=
  seqR (mstr "what") (seqR (mopt (mlit [apos])) (mstr "s"))

/-- The greeting pattern (fully anchored, one alternation). -/
def greetingRe : M Unit :=
  malt [mstr "hi", mstr "hello", mstr "hey", mstr "howdy", mstr "greetings",
    seqR (mstr "good") (seqR spacesPlus
      (malt [mstr "morning", mstr "afternoon", mstr "evening"])),
    seqR whatAposS (seqR spacesPlus (mstr "up")),
    mstr "yo", mstr "hiya", mstr "heya", mstr "sup", mstr "hola",
    seqR (mstr "hi") (seqR spacesPlus (mstr "there")),
    seqR (mstr "hello") (seqR spacesPlus (mstr "there"))]

/-- The six help-query patterns (anchored at the start). -/
def helpPatterns : List (M Unit) :=
  [seqR (malt [mstr "how", mstr "what"]) (seqR (mstr " can you ")
     (malt [mstr "help", mstr "do", mstr "assist"])),
   seqR (mstr "what ") (seqR (malt [mstr "can", mstr "could"]) (seqR (mstr " you ")
     (malt [mstr "help", mstr "do", mstr "assist"]))),
   seqR (malt [mstr "help", mstr "assist"]) (mstr " me"),
   seqR (mstr "what ") (seqR (malt [mstr "are your", mstr "are the"]) (seqR (mstr " ")
     (malt [mstr "capabilities", mstr "functions"]))),
   seqR (malt [mstr "tell me", mstr "show me"]) (seqR (mstr " ")
     (seqR (malt [mstr "what", mstr "how"]) (seqR (mstr " you can ")
       (malt [mstr "do", mstr "help"])))),
   seqR (mstr "what ") (seqR (malt [mstr "do", mstr "can"]) (seqR (mstr " you ")
     (malt [mstr "offer", mstr "provide"])))]

/-- History pattern 1:
`(?:show|display|get|check|tell me) (?:my )?(?:transaction|tx|history|recent activity)`. -/
def hist1 : M Unit :=
  seqR (malt [mstr "show", mstr "display", mstr "get", mstr "check", mstr "tell me"])
    (seqR (mstr " ") (seqR (mopt (mstr "my "))
      (malt [mstr "transaction", mstr "tx", mstr "history", mstr "recent activity"])))

/-- History pattern 2:
`(?:what|how) (?:are|were) (?:my )?(?:recent|last) (?:transactions|activity)`. -/
def hist2 : M Unit :=
  seqR (malt [mstr "what", mstr "how"]) (seqR (mstr " ")
    (seqR (malt [mstr "are", mstr "were"]) (seqR (mstr " ")
      (seqR (mopt (mstr "my ")) (seqR (malt [mstr "recent", mstr "last"])
        (seqR (mstr " ") (malt [mstr "transactions", mstr "activity"])))))))

/-- History pattern 3:
`(?:show|display|get|check) (?:my )?(?:recent|last) (?:transactions|activity)`. -/
def hist3 : M Unit :=
  seqR (malt [mstr "show", mstr "display", mstr "get", mstr "check"])
    (seqR (mstr " ") (seqR (mopt (mstr "my "))
      (seqR (malt [mstr "recent", mstr "last"]) (seqR (mstr " ")
        (malt [mstr "transactions", mstr "activity"])))))

/-- History pattern 4: `(?:transaction|tx) history`. -/
def hist4 : M Unit :=
  seqR (malt [mstr "transaction", mstr "tx"]) (mstr " history")

/-- The four transaction-history patterns. -/
def historyPatterns : List (M Unit) := [hist1, hist2, hist3, hist4]

/-- Balance pattern 1:
`(?:what'?s|show|get|check|tell me) (?:my )?(?:current )?(?:balance|balances)`. -/
def bal1 : M Unit :=
  seqR (malt [whatAposS, mstr "show", mstr "get", mstr "check", mstr "tell me"])
    (seqR (mstr " ") (seqR (mopt (mstr "my ")) (seqR (mopt (mstr "current "))
      (malt [mstr "balance", mstr "balances"]))))

/-- Balance pattern 2: `(?:how much|what) (?:do i have|do i own|is in my wallet)`. -/
def bal2 : M Unit :=
  seqR (malt [mstr "how much", mstr "what"]) (seqR (mstr " ")
    (malt [mstr "do i have", mstr "do i own", mstr "is in my wallet"]))

/-- Balance pattern 3: `(?:show|display|list) (?:my )?(?:tokens|holdings)`. -/
def bal3 : M Unit :=
  seqR (malt [mstr "show", mstr "display", mstr "list"]) (seqR (mstr " ")
    (seqR (mopt (mstr "my ")) (malt [mstr "tokens", mstr "holdings"])))

/-- Balance pattern 4: `(?:check|get) (?:my )?(?:wallet|account)`. -/
def bal4 : M Unit :=
  seqR (malt [mstr "check", mstr "get"]) (seqR (mstr " ")
    (seqR (mopt (mstr "my ")) (malt [mstr "wallet", mstr "account"])))

/-- The four balance-query patterns. -/
def balancePatterns : List (M Unit) := [bal1, bal2, bal3, bal4]

/-- ASCII alphanumeric, the class `[a-zA-Z0-9]`. -/
def isAlnumChar (c : Char) : Bool :=
  ((48 ≤ c.toNat && c.toNat ≤ 57) || (65 ≤ c.toNat && c.toNat ≤ 90) ||
   (97 ≤ c.toNat && c.toNat ≤ 122))

/-- The captured address of the meme patterns: `([a-zA-Z0-9]{32,44})`. -/
def memeAddrCap : M (List Char) := mcls isAlnumChar 32 44

/-- `(?:token|coin|meme|meme coin)`. -/
def tokenWord : M Unit :=
  malt [mstr "token", mstr "coin", mstr "meme", mstr "meme coin"]

/-- Meme pattern 1: `analyze (?:this )?(?:token|coin|meme|meme coin)(?::| at)?\s+(addr)`. -/
def meme1 : M (List Char) :=
  seqR (mstr "analyze ") (seqR (mopt (mstr "this ")) (seqR tokenWord
    (seqR (mopt (malt [mstr ":", mstr " at"])) (seqR spacesPlus memeAddrCap))))

/-- Meme pattern 2: like `meme1` with `check`. -/
def meme2 : M (List Char) :=
  seqR (mstr "check ") (seqR (mopt (mstr "this ")) (seqR tokenWord
    (seqR (mopt (malt [mstr ":", mstr " at"])) (seqR spacesPlus memeAddrCap))))

/-- Meme pattern 3: like `meme1` with `what (?:is|about)`. -/
def meme3 : M (List Char) :=
  seqR (mstr "what ") (seqR (malt [mstr "is", mstr "about"]) (seqR (mstr " ")
    (seqR (mopt (mstr "this ")) (seqR tokenWord
      (seqR (mopt (malt [mstr ":", mstr " at"])) (seqR spacesPlus memeAddrCap))))))

/-- Meme pattern 4: `analyze (?:token|coin|meme|meme coin) (?:at|:)?\s+(addr)`. -/
def meme4 : M (List Char) :=
  seqR (mstr "analyze ") (seqR tokenWord (seqR (mstr " ")
    (seqR (mopt (malt [mstr "at", mstr ":"])) (seqR spacesPlus memeAddrCap))))

/-- Meme pattern 5: like `meme4` with `check`. -/
def meme5 : M (List Char) :=
  seqR (mstr "check ") (seqR tokenWord (seqR (mstr " ")
    (seqR (mopt (malt [mstr "at", mstr ":"])) (seqR spacesPlus memeAddrCap))))

/-- Meme pattern 6: like `meme4` with `what (?:is|about)`. -/
def meme6 : M (List Char) :=
  seqR (mstr "what ") (seqR (malt [mstr "is", mstr "about"]) (seqR (mstr " ")
    (seqR tokenWord (seqR (mstr " ")
      (seqR (mopt (malt [mstr "at", mstr ":"])) (seqR spacesPlus memeAddrCap))))))

/-- The six meme-coin analysis patterns, capturing the address. -/
def memePatterns : List (M (List Char)) := [meme1, meme2, meme3, meme4, meme5, meme6]

/-- A captured word, `(\w+)`. -/
def wordCap : M (List Char) := mclsU isWordChar 1

/-- Price pattern 1:
`(?:what'?s|show|get|check|tell me) (?:the )?(?:current )?(?:price of )?(\w+)`. -/
def price1 : M (List Char) :=
  seqR (malt [whatAposS, mstr "show", mstr "get", mstr "check", mstr "tell me"])
    (seqR (mstr " ") (seqR (mopt (mstr "the ")) (seqR (mopt (mstr "current "))
      (seqR (mopt (mstr "price of ")) wordCap))))

/-- Price pattern 2: `(?:price|value) of (\w+)`. -/
def price2 : M (List Char) :=
  seqR (malt [mstr "price", mstr "value"]) (seqR (mstr " of ") wordCap)

/-- Price pattern 3: `(\w+) price`. -/
def price3 : M (List Char) := seqL wordCap (mstr " price")

/-- Price pattern 4: `(\w+) value`. -/
def price4 : M (List Char) := seqL wordCap (mstr " value")

/-- The four price-query patterns, capturing the symbol word. -/
def pricePatterns : List (M (List Char)) := [price1, price2, price3, price4]

/-- The captured amount `(\d+(?:\.\d+)?)`, as the matched characters. -/
def numCap : M (List Char) :=
  mbind (mclsU isDigitChar 1) (fun d1 =>
    malt [mbind (mstr ".") (fun _ =>
            mbind (mclsU isDigitChar 1) (fun d2 => mpure (d1 ++ '.' :: d2))),
          mpure d1])

/-- The captured recipient `([1-9A-HJ-NP-Za-km-z]{32,44})` (an `i`-flagged
class). -/
def b58Cap : M (List Char) := mcls isBase58CharCI 32 44

/-- The send pattern:
`send\s+(\d+(?:\.\d+)?)\s+(\w+)\s+to\s+([1-9A-HJ-NP-Za-km-z]{32,44})`. -/
def sendRe : M (List Char × List Char × List Char) :=
  seqR (mstr "send") (seqR spacesPlus (mbind numCap (fun amount =>
    seqR spacesPlus (mbind wordCap (fun token =>
      seqR spacesPlus (seqR (mstr "to") (seqR spacesPlus
        (mbind b58Cap (fun address => mpure (amount, token, address))))))))))

/-- The swap pattern: `swap\s+(\d+(?:\.\d+)?)\s+(\w+)\s+to\s+(\w+)`. -/
def swapRe : M (List Char × List Char × List Char) :=
  seqR (mstr "swap") (seqR spacesPlus (mbind numCap (fun amount =>
    seqR spacesPlus (mbind wordCap (fun fromTok =>
      seqR spacesPlus (seqR (mstr "to") (seqR spacesPlus
        (mbind wordCap (fun toTok => mpure (amount, fromTok, toTok))))))))))

/-- The common-symbol mapping of the price branch. -/
def symbolMap (symbol : String) : Option String :=
  if symbol == "BTC" then some "BTC"
  else if symbol == "BITCOIN" then some "BTC"
  else if symbol == "ETH" then some "ETH"
  else if symbol == "ETHEREUM" then some "ETH"
  else if symbol == "SOL" then some "SOL"
  else if symbol == "SOLANA" then some "SOL"
  else if symbol == "USDC" then some "USDC"
  else if symbol == "USDT" then some "USDT"
  else if symbol == "BNB" then some "BNB"
  else if symbol == "BINANCE" then some "BNB"
  else if symbol == "XRP" then some "XRP"
  else if symbol == "ADA" then some "ADA"
  else if symbol == "CARDANO" then some "ADA"
  else if symbol == "DOGE" then some "DOGE"
  else if symbol == "DOGECOIN" then some "DOGE"
  else none

/-- `AIWalletService.parseRequest`: the regex cascade in source order,
first match wins. -/
def parseRequest (request : String) : Option AIIntent :=
  let requestText := request.toList
  let lowerRequest := requestText.map jsLower
  if fullTest greetingRe lowerRequest then
    some { action := .greeting }
  else if helpPatterns.any (fun m => anchoredTest m lowerRequest) then
    some { action := .helpQuery }
  else if historyPatterns.any (fun m => (searchFirst m requestText).isSome) then
    some { action := .history }
  else if balancePatterns.any (fun m => (searchFirst m requestText).isSome) then
    some { action := .balance }
  else
    match firstHit memePatterns requestText with
    | some address => some { action := .meme, address := some (String.mk address) }
    | none =>
      match firstHit pricePatterns requestText with
      | some w =>
        let symbol := strUpper (String.mk w)
        let mappedSymbol := (symbolMap symbol).getD symbol
        some { action := .price, symbol := some mappedSymbol }
      | none =>
        match searchFirst sendRe requestText with
        | some (amount, token, address) =>
          if !isBase58StrCI address then none
          else
            some { action := .send, amount := some (String.mk amount)
                   fromToken := some (strUpper (String.mk token))
                   recipient := some (String.mk address) }
        | none =>
          match searchFirst swapRe requestText with
          | some (amount, fromTok, toTok) =>
            some { action := .swap, amount := some (String.mk amount)
                   fromToken := some (strUpper (String.mk fromTok))
                   toToken := some (strUpper (String.mk toTok)) }
          | none => none

end Inteliq

namespace Inteliq

/-! ## Structural facts about the pattern engine (used by C8 and C9) -/


/-- Every outcome's rest is a drop of the input. -/
def Drops {α : Type} (m : M α) : Prop :=
  ∀ s p, p ∈ m s → ∃ k, p.2 = List.drop k s

theorem drops_mpure {α : Type} (a : α) : Drops (mpure a) := by
  intro s p hp
  simp [mpure] at hp
  exact ⟨0, by simp [hp]⟩

theorem drops_mlit (w : List Char) : Drops (mlit w) := by
  intro s p hp
  simp only [mlit] at hp
  split at hp
  · simp at hp
    exact ⟨w.length, by simp [hp]⟩
  · simp at hp

theorem drops_mstr (w : String) : Drops (mstr w) := drops_mlit w.toList

theorem drops_mbind {α β : Type} (m : M α) (f : α → M β)
    (hm : Drops m) (hf : ∀ a, Drops (f a)) : Drops (mbind m f) := by
  intro s p hp
  simp only [mbind, List.mem_flatMap] at hp
  obtain ⟨q, hq, hp2⟩ := hp
  obtain ⟨k1, hk1⟩ := hm s q hq
  obtain ⟨k2, hk2⟩ := hf q.1 q.2 p hp2
  exact ⟨k1 + k2, by rw [hk2, hk1, List.drop_drop, Nat.add_comm]⟩

theorem drops_mmap {α β : Type} (f : α → β) (m : M α) (hm : Drops m) :
    Drops (mmap f m) := by
  intro s p hp
  simp only [mmap, List.mem_map] at hp
  obtain ⟨q, hq, hp2⟩ := hp
  obtain ⟨k, hk⟩ := hm s q hq
  exact ⟨k, by rw [← hp2]; exact hk⟩

theorem drops_malt {α : Type} (ms : List (M α)) (h : ∀ m ∈ ms, Drops m) :
    Drops (malt ms) := by
  intro s p hp
  simp only [malt, List.mem_flatMap] at hp
  obtain ⟨m, hm, hp2⟩ := hp
  exact h m hm s p hp2

theorem drops_mopt (m : M Unit) (hm : Drops m) : Drops (mopt m) := by
  intro s p hp
  simp only [mopt, List.mem_append] at hp
  rcases hp with hp | hp
  · exact hm s p hp
  · simp at hp
    exact ⟨0, by simp [hp]⟩

theorem drops_mcls (p : Char → Bool) (lo hi : ℕ) : Drops (mcls p lo hi) := by
  intro s q hq
  simp only [mcls, List.mem_filterMap] at hq
  obtain ⟨k, -, hk⟩ := hq
  split at hk
  · simp at hk
    exact ⟨k, by rw [← hk]⟩
  · simp at hk

theorem drops_mclsU (p : Char → Bool) (lo : ℕ) : Drops (mclsU p lo) := by
  intro s q hq
  simp only [mclsU, List.mem_filterMap] at hq
  obtain ⟨k, -, hk⟩ := hq
  split at hk
  · simp at hk
    exact ⟨k, by rw [← hk]⟩
  · simp at hk

theorem drops_seqR {α : Type} (a : M Unit) (b : M α) (ha : Drops a) (hb : Drops b) :
    Drops (seqR a b) :=
  drops_mbind a (fun _ => b) ha (fun _ => hb)

theorem drops_whatAposS : Drops whatAposS :=
  drops_seqR _ _ (drops_mstr _)
    (drops_seqR _ _ (drops_mopt _ (drops_mlit _)) (drops_mstr _))

end Inteliq

namespace Inteliq



/-! Facts about matching over base58-only text (no whitespace in it). -/
def B58 (t : List Char) : Prop := ∀ c ∈ t, isBase58Char c = true

theorem b58_drop (t : List Char) (k : ℕ) (h : B58 t) : B58 (List.drop k t) :=
  fun c hc => h c (List.mem_of_mem_drop hc)

theorem b58_tail (c : Char) (t : List Char) (h : B58 (c :: t)) : B58 t :=
  fun x hx => h x (List.mem_cons_of_mem c hx)

theorem ciEq_space_b58 (c : Char) (h : isBase58Char c = true) : ciEq ' ' c = false := by
  simp only [isBase58Char, Bool.or_eq_true, Bool.and_eq_true, decide_eq_true_eq] at h
  simp only [ciEq, lowerCode, beq_eq_false_iff_ne, ne_eq]
  have hsp : (' ' : Char).toNat = 32 := by decide
  split <;> split <;> omega

theorem b58_not_space (c : Char) (h : isBase58Char c = true) : isSpaceChar c = false := by
  simp only [isBase58Char, Bool.or_eq_true, Bool.and_eq_true, decide_eq_true_eq] at h
  simp only [isSpaceChar, Bool.or_eq_false_iff, Bool.and_eq_false_iff]
  constructor
  · simp only [beq_eq_false_iff_ne, ne_eq]
    omega
  · simp only [decide_eq_false_iff_not, not_le]
    omega

theorem b58_ci (c : Char) (h : isBase58Char c = true) : isBase58CharCI c = true := by
  simp only [isBase58Char, Bool.or_eq_true, Bool.and_eq_true, decide_eq_true_eq] at h
  simp only [isBase58CharCI, Bool.or_eq_true, Bool.and_eq_true, decide_eq_true_eq]
  omega

theorem leadsWithCI_space_false (w t : List Char) (hw : ' ' ∈ w) (ht : B58 t) :
    leadsWithCI w t = false := by
  induction w generalizing t with
  | nil => simp at hw
  | cons p ps ih =>
    cases t with
    | nil => rfl
    | cons c cs =>
      rw [leadsWithCI]
      rcases List.mem_cons.mp hw with hp | hp
      · rw [← hp, ciEq_space_b58 c (ht c (List.mem_cons_self c cs))]
        rfl
      · rw [ih cs hp (b58_tail c cs ht)]
        exact Bool.and_false _

theorem mlit_space_dead (w : List Char) (hw : ' ' ∈ w) (t : List Char) (ht : B58 t) :
    mlit w t = [] := by
  simp [mlit, leadsWithCI_space_false w t hw ht]

theorem mbind_dead_left {α β : Type} (m : M α) (f : α → M β) (t : List Char)
    (h : m t = []) : mbind m f t = [] := by
  simp [mbind, h]

theorem mbind_dead {α β : Type} (m : M α) (f : α → M β)
    (hD : Drops m) (hf : ∀ a u, B58 u → f a u = [])
    (t : List Char) (ht : B58 t) : mbind m f t = [] := by
  simp only [mbind, List.flatMap_eq_nil_iff]
  intro p hp
  obtain ⟨k, hk⟩ := hD t p hp
  rw [hk]
  exact hf p.1 _ (b58_drop t k ht)

/-! A pattern that must consume a space fails on base58-only text. -/
theorem seqR_space_dead {α : Type} (a : M Unit) (b : M α) (ha : Drops a)
    (t : List Char) (ht : B58 t) : seqR a (seqR (mstr " ") b) t = [] := by
  refine mbind_dead a _ ha (fun x u hu => ?_) t ht
  exact mbind_dead_left _ _ u (mlit_space_dead _ (by decide) u hu)

end Inteliq

namespace Inteliq

/-! ## The C8 scenario: no earlier classifier pattern fires on the input
`"send 0.1 SOL to " ++ addr` for a base58 address -/


theorem searchFirst_none_of_dead {α : Type} (m : M α)
    (hd : ∀ u, B58 u → m u = []) :
    ∀ t, B58 t → searchFirst m t = none := by
  intro t
  induction t with
  | nil =>
    intro hB
    rw [searchFirst, hd [] hB]
    rfl
  | cons c t ih =>
    intro hB
    rw [searchFirst, hd (c :: t) hB]
    exact ih (b58_tail c t hB)

theorem searchFirst_append_none {α : Type} (m : M α) (pre t : List Char)
    (hpre : ∀ k, k < pre.length → m (List.drop k pre ++ t) = [])
    (ht : searchFirst m t = none) :
    searchFirst m (pre ++ t) = none := by
  induction pre with
  | nil => exact ht
  | cons c pre ih =>
    rw [List.cons_append, searchFirst]
    have h0 : m (c :: (pre ++ t)) = [] := by
      have := hpre 0 (by simp)
      simpa using this
    rw [h0]
    exact ih (fun k hk => by
      have := hpre (k + 1) (by simp; omega)
      simpa using this)

/-- The concrete prefix of the C8 scenario input. -/
def sendPre : List Char := "send 0.1 SOL to ".toList

theorem seqR_litspace_dead (a : M Unit) (w : String) (ha : Drops a)
    (hw : ' ' ∈ w.toList) (t : List Char) (ht : B58 t) : seqR a (mstr w) t = [] :=
  mbind_dead a _ ha (fun _ u hu => mlit_space_dead _ hw u hu) t ht

theorem seqR_seqlit_dead {α : Type} (a : M Unit) (w : String) (b : M α) (ha : Drops a)
    (hw : ' ' ∈ w.toList) (t : List Char) (ht : B58 t) : seqR a (seqR (mstr w) b) t = [] :=
  mbind_dead a _ ha (fun _ u hu => mbind_dead_left _ _ u (mlit_space_dead _ hw u hu)) t ht

theorem seqR_firstlit_dead {α : Type} (w : String) (b : M α)
    (hw : ' ' ∈ w.toList) (t : List Char) (ht : B58 t) : seqR (mstr w) b t = [] :=
  mbind_dead_left _ _ t (mlit_space_dead _ hw t ht)

theorem seqL_litspace_dead {α : Type} (m : M α) (w : String) (hD : Drops m)
    (hw : ' ' ∈ w.toList) (t : List Char) (ht : B58 t) : seqL m (mstr w) t = [] :=
  mbind_dead m _ hD (fun _ u hu => mbind_dead_left _ _ u (mlit_space_dead _ hw u hu)) t ht

theorem drops_trig1 :
    Drops (malt [mstr "show", mstr "display", mstr "get", mstr "check", mstr "tell me"]) := by
  refine drops_malt _ ?_
  intro m hm
  simp only [List.mem_cons, List.not_mem_nil, or_false] at hm
  rcases hm with rfl | rfl | rfl | rfl | rfl <;> exact drops_mstr _

theorem drops_trigB :
    Drops (malt [whatAposS, mstr "show", mstr "get", mstr "check", mstr "tell me"]) := by
  refine drops_malt _ ?_
  intro m hm
  simp only [List.mem_cons, List.not_mem_nil, or_false] at hm
  rcases hm with rfl | rfl | rfl | rfl | rfl
  · exact drops_whatAposS
  all_goals exact drops_mstr _

theorem drops_mstr_pair (w1 w2 : String) : Drops (malt [mstr w1, mstr w2]) := by
  refine drops_malt _ ?_
  intro m hm
  simp only [List.mem_cons, List.not_mem_nil, or_false] at hm
  rcases hm with rfl | rfl <;> exact drops_mstr _

theorem drops_trig3 :
    Drops (malt [mstr "show", mstr "display", mstr "get", mstr "check"]) := by
  refine drops_malt _ ?_
  intro m hm
  simp only [List.mem_cons, List.not_mem_nil, or_false] at hm
  rcases hm with rfl | rfl | rfl | rfl <;> exact drops_mstr _

theorem drops_trigb3 : Drops (malt [mstr "show", mstr "display", mstr "list"]) := by
  refine drops_malt _ ?_
  intro m hm
  simp only [List.mem_cons, List.not_mem_nil, or_false] at hm
  rcases hm with rfl | rfl | rfl <;> exact drops_mstr _

theorem hist1_no_hit (addr : List Char) (hB : B58 addr) :
    searchFirst hist1 (sendPre ++ addr) = none := by
  refine searchFirst_append_none _ _ _ ?_
    (searchFirst_none_of_dead _ (fun u hu => seqR_seqlit_dead _ " " _ drops_trig1 (by decide) u hu) addr hB)
  intro k hk
  rw [show sendPre.length = 16 from rfl] at hk
  interval_cases k <;> rfl

theorem hist2_no_hit (addr : List Char) (hB : B58 addr) :
    searchFirst hist2 (sendPre ++ addr) = none := by
  refine searchFirst_append_none _ _ _ ?_
    (searchFirst_none_of_dead _ (fun u hu => seqR_seqlit_dead _ " " _ (drops_mstr_pair "what" "how") (by decide) u hu) addr hB)
  intro k hk
  rw [show sendPre.length = 16 from rfl] at hk
  interval_cases k <;> rfl

theorem hist3_no_hit (addr : List Char) (hB : B58 addr) :
    searchFirst hist3 (sendPre ++ addr) = none := by
  refine searchFirst_append_none _ _ _ ?_
    (searchFirst_none_of_dead _ (fun u hu => seqR_seqlit_dead _ " " _ drops_trig3 (by decide) u hu) addr hB)
  intro k hk
  rw [show sendPre.length = 16 from rfl] at hk
  interval_cases k <;> rfl

theorem hist4_no_hit (addr : List Char) (hB : B58 addr) :
    searchFirst hist4 (sendPre ++ addr) = none := by
  refine searchFirst_append_none _ _ _ ?_
    (searchFirst_none_of_dead _ (fun u hu => seqR_litspace_dead _ " history" (drops_mstr_pair "transaction" "tx") (by decide) u hu) addr hB)
  intro k hk
  rw [show sendPre.length = 16 from rfl] at hk
  interval_cases k <;> rfl

theorem bal1_no_hit (addr : List Char) (hB : B58 addr) :
    searchFirst bal1 (sendPre ++ addr) = none := by
  refine searchFirst_append_none _ _ _ ?_
    (searchFirst_none_of_dead _ (fun u hu => seqR_seqlit_dead _ " " _ drops_trigB (by decide) u hu) addr hB)
  intro k hk
  rw [show sendPre.length = 16 from rfl] at hk
  interval_cases k <;> rfl

theorem bal2_no_hit (addr : List Char) (hB : B58 addr) :
    searchFirst bal2 (sendPre ++ addr) = none := by
  refine searchFirst_append_none _ _ _ ?_
    (searchFirst_none_of_dead _ (fun u hu => seqR_seqlit_dead _ " " _ (drops_mstr_pair "how much" "what") (by decide) u hu) addr hB)
  intro k hk
  rw [show sendPre.length = 16 from rfl] at hk
  interval_cases k <;> rfl

theorem bal3_no_hit (addr : List Char) (hB : B58 addr) :
    searchFirst bal3 (sendPre ++ addr) = none := by
  refine searchFirst_append_none _ _ _ ?_
    (searchFirst_none_of_dead _ (fun u hu => seqR_seqlit_dead _ " " _ drops_trigb3 (by decide) u hu) addr hB)
  intro k hk
  rw [show sendPre.length = 16 from rfl] at hk
  interval_cases k <;> rfl

theorem bal4_no_hit (addr : List Char) (hB : B58 addr) :
    searchFirst bal4 (sendPre ++ addr) = none := by
  refine searchFirst_append_none _ _ _ ?_
    (searchFirst_none_of_dead _ (fun u hu => seqR_seqlit_dead _ " " _ (drops_mstr_pair "check" "get") (by decide) u hu) addr hB)
  intro k hk
  rw [show sendPre.length = 16 from rfl] at hk
  interval_cases k <;> rfl


theorem meme1_no_hit (addr : List Char) (hB : B58 addr) :
    searchFirst meme1 (sendPre ++ addr) = none := by
  refine searchFirst_append_none _ _ _ ?_
    (searchFirst_none_of_dead _ (fun u hu =>
      seqR_firstlit_dead "analyze " _ (by decide) u hu) addr hB)
  intro k hk
  rw [show sendPre.length = 16 from rfl] at hk
  interval_cases k <;> rfl

theorem price3_no_hit (addr : List Char) (hB : B58 addr)
    (hpr : leadsWithCI "price".toList addr = false) :
    searchFirst price3 (sendPre ++ addr) = none := by
  refine searchFirst_append_none _ _ _ ?_
    (searchFirst_none_of_dead _ (fun u hu =>
      seqL_litspace_dead _ " price" (drops_mclsU _ _) (by decide) u hu) addr hB)
  intro k hk
  rw [show sendPre.length = 16 from rfl] at hk
  have hpr' : leadsWithCI ['p', 'r', 'i', 'c', 'e'] addr = false := hpr
  have hsp : mlit [' ', 'p', 'r', 'i', 'c', 'e'] (' ' :: addr) = [] := by
    have hl : leadsWithCI [' ', 'p', 'r', 'i', 'c', 'e'] (' ' :: addr) = false := by
      rw [leadsWithCI, show ciEq ' ' ' ' = true from rfl, Bool.true_and, hpr']
    simp [mlit, hl]
  interval_cases k
  case «13» =>
    show price3 ('t' :: 'o' :: ' ' :: addr) = []
    have hto : wordCap ('t' :: 'o' :: ' ' :: addr) =
        [(['t', 'o'], ' ' :: addr), (['t'], 'o' :: ' ' :: addr)] := rfl
    simp only [price3, seqL, mbind, hto, List.flatMap_cons, List.flatMap_nil,
      List.append_nil, mstr]
    simp only [show ((" price".toList) : List Char) = [' ', 'p', 'r', 'i', 'c', 'e'] from rfl, hsp]
    rfl
  case «14» =>
    show price3 ('o' :: ' ' :: addr) = []
    have hto : wordCap ('o' :: ' ' :: addr) = [(['o'], ' ' :: addr)] := rfl
    simp only [price3, seqL, mbind, hto, List.flatMap_cons, List.flatMap_nil,
      List.append_nil, mstr]
    simp only [show ((" price".toList) : List Char) = [' ', 'p', 'r', 'i', 'c', 'e'] from rfl, hsp]
    rfl
  all_goals rfl

end Inteliq

namespace Inteliq


theorem meme2_no_hit (addr : List Char) (hB : B58 addr) :
    searchFirst meme2 (sendPre ++ addr) = none := by
  refine searchFirst_append_none _ _ _ ?_
    (searchFirst_none_of_dead _ (fun u hu =>
      seqR_firstlit_dead "check " _ (by decide) u hu) addr hB)
  intro k hk
  rw [show sendPre.length = 16 from rfl] at hk
  interval_cases k <;> rfl

theorem meme3_no_hit (addr : List Char) (hB : B58 addr) :
    searchFirst meme3 (sendPre ++ addr) = none := by
  refine searchFirst_append_none _ _ _ ?_
    (searchFirst_none_of_dead _ (fun u hu =>
      seqR_firstlit_dead "what " _ (by decide) u hu) addr hB)
  intro k hk
  rw [show sendPre.length = 16 from rfl] at hk
  interval_cases k <;> rfl

theorem meme4_no_hit (addr : List Char) (hB : B58 addr) :
    searchFirst meme4 (sendPre ++ addr) = none := by
  refine searchFirst_append_none _ _ _ ?_
    (searchFirst_none_of_dead _ (fun u hu =>
      seqR_firstlit_dead "analyze " _ (by decide) u hu) addr hB)
  intro k hk
  rw [show sendPre.length = 16 from rfl] at hk
  interval_cases k <;> rfl

theorem meme5_no_hit (addr : List Char) (hB : B58 addr) :
    searchFirst meme5 (sendPre ++ addr) = none := by
  refine searchFirst_append_none _ _ _ ?_
    (searchFirst_none_of_dead _ (fun u hu =>
      seqR_firstlit_dead "check " _ (by decide) u hu) addr hB)
  intro k hk
  rw [show sendPre.length = 16 from rfl] at hk
  interval_cases k <;> rfl

theorem meme6_no_hit (addr : List Char) (hB : B58 addr) :
    searchFirst meme6 (sendPre ++ addr) = none := by
  refine searchFirst_append_none _ _ _ ?_
    (searchFirst_none_of_dead _ (fun u hu =>
      seqR_firstlit_dead "what " _ (by decide) u hu) addr hB)
  intro k hk
  rw [show sendPre.length = 16 from rfl] at hk
  interval_cases k <;> rfl

theorem price1_no_hit (addr : List Char) (hB : B58 addr) :
    searchFirst price1 (sendPre ++ addr) = none := by
  refine searchFirst_append_none _ _ _ ?_
    (searchFirst_none_of_dead _ (fun u hu =>
      seqR_seqlit_dead _ " " _ drops_trigB (by decide) u hu) addr hB)
  intro k hk
  rw [show sendPre.length = 16 from rfl] at hk
  interval_cases k <;> rfl

theorem price2_no_hit (addr : List Char) (hB : B58 addr) :
    searchFirst price2 (sendPre ++ addr) = none := by
  refine searchFirst_append_none _ _ _ ?_
    (searchFirst_none_of_dead _ (fun u hu =>
      seqR_seqlit_dead _ " of " _ (drops_mstr_pair "price" "value") (by decide) u hu) addr hB)
  intro k hk
  rw [show sendPre.length = 16 from rfl] at hk
  interval_cases k <;> rfl

theorem price4_no_hit (addr : List Char) (hB : B58 addr)
    (hvl : leadsWithCI "value".toList addr = false) :
    searchFirst price4 (sendPre ++ addr) = none := by
  refine searchFirst_append_none _ _ _ ?_
    (searchFirst_none_of_dead _ (fun u hu =>
      seqL_litspace_dead _ " value" (drops_mclsU _ _) (by decide) u hu) addr hB)
  intro k hk
  rw [show sendPre.length = 16 from rfl] at hk
  have hvl' : leadsWithCI ['v', 'a', 'l', 'u', 'e'] addr = false := hvl
  have hsp : mlit [' ', 'v', 'a', 'l', 'u', 'e'] (' ' :: addr) = [] := by
    have hl : leadsWithCI [' ', 'v', 'a', 'l', 'u', 'e'] (' ' :: addr) = false := by
      rw [leadsWithCI, show ciEq ' ' ' ' = true from rfl, Bool.true_and, hvl']
    simp [mlit, hl]
  interval_cases k
  case «13» =>
    show price4 ('t' :: 'o' :: ' ' :: addr) = []
    have hto : wordCap ('t' :: 'o' :: ' ' :: addr) =
        [(['t', 'o'], ' ' :: addr), (['t'], 'o' :: ' ' :: addr)] := rfl
    simp only [price4, seqL, mbind, hto, List.flatMap_cons, List.flatMap_nil,
      List.append_nil, mstr]
    simp only [show ((" value".toList) : List Char) = [' ', 'v', 'a', 'l', 'u', 'e'] from rfl, hsp]
    rfl
  case «14» =>
    show price4 ('o' :: ' ' :: addr) = []
    have hto : wordCap ('o' :: ' ' :: addr) = [(['o'], ' ' :: addr)] := rfl
    simp only [price4, seqL, mbind, hto, List.flatMap_cons, List.flatMap_nil,
      List.append_nil, mstr]
    simp only [show ((" value".toList) : List Char) = [' ', 'v', 'a', 'l', 'u', 'e'] from rfl, hsp]
    rfl
  all_goals rfl

theorem greeting_no_hit (addr : List Char) :
    fullTest greetingRe ((sendPre ++ addr).map jsLower) = false := rfl

theorem help_no_hit (addr : List Char) :
    helpPatterns.any (fun m => anchoredTest m ((sendPre ++ addr).map jsLower)) = false := rfl


/-! ## C8: the send pattern on a well-formed send command -/

/-- Base58 text begins with no whitespace. -/
theorem takeWhile_space_b58 (addr : List Char) (hB : B58 addr) :
    List.takeWhile isSpaceChar addr = [] := by
  cases addr with
  | nil => rfl
  | cons c t =>
    rw [List.takeWhile_cons, b58_not_space c (hB c (List.mem_cons_self c t))]
    rfl

/-- Base58 text is consumed whole by the case-insensitive base58 class. -/
theorem takeWhile_ci_b58 (addr : List Char) (hB : B58 addr) :
    List.takeWhile isBase58CharCI addr = addr := by
  induction addr with
  | nil => rfl
  | cons c t ih =>
    rw [List.takeWhile_cons, b58_ci c (hB c (List.mem_cons_self c t))]
    simp only [if_true, ite_true, ih (b58_tail c t hB)]

/-- On a base58 string of admissible length, the greedy address capture
offers the whole string first. -/
theorem b58Cap_full (addr : List Char) (hB : B58 addr)
    (h32 : 32 ≤ addr.length) (h44 : addr.length ≤ 44) :
    ∃ tl, b58Cap addr = (addr, ([] : List Char)) :: tl := by
  refine ⟨((List.range addr.length).reverse).filterMap (fun k =>
    if 32 ≤ k then some (addr.take k, addr.drop k) else none), ?_⟩
  rw [b58Cap, mcls]
  simp only [takeWhile_ci_b58 addr hB, List.take_of_length_le h44]
  rw [List.range_succ, List.reverse_append]
  simp only [List.reverse_cons, List.reverse_nil, List.nil_append, List.cons_append,
    List.filterMap_cons]
  rw [if_pos h32]
  simp [List.take_length, List.drop_length]

/-- The send regex matches `send 0.1 SOL to <addr>` at position 0 and
captures amount `0.1`, token `SOL` and the full address. -/
theorem sendRe_hit (addr : List Char) (hB : B58 addr)
    (h32 : 32 ≤ addr.length) (h44 : addr.length ≤ 44) :
    searchFirst sendRe (sendPre ++ addr) =
      some ("0.1".toList, "SOL".toList, addr) := by
  obtain ⟨tl, htl⟩ := b58Cap_full addr hB h32 h44
  have hsp : List.takeWhile isSpaceChar addr = [] := takeWhile_space_b58 addr hB
  have hcons : sendPre ++ addr = 's' :: 'e' :: 'n' :: 'd' :: ' ' :: '0' :: '.' :: '1' :: ' ' ::
      'S' :: 'O' :: 'L' :: ' ' :: 't' :: 'o' :: ' ' :: addr := rfl
  have hhead : (sendRe ('s' :: 'e' :: 'n' :: 'd' :: ' ' :: '0' :: '.' :: '1' :: ' ' ::
      'S' :: 'O' :: 'L' :: ' ' :: 't' :: 'o' :: ' ' :: addr)).head? =
      some (("0.1".toList, "SOL".toList, addr), []) := by
    have hr2 : List.range 2 = [0, 1] := rfl
    have hr4 : List.range 4 = [0, 1, 2, 3] := rfl
    simp [sendRe, seqR, mbind, mstr, mlit, mclsU, mmap, spacesPlus, numCap,
      wordCap, malt, mpure, hsp, htl, List.takeWhile_cons, leadsWithCI, ciEq,
      lowerCode, isSpaceChar, isDigitChar, isWordChar, hr2, hr4,
      List.take_succ_cons, List.drop_succ_cons]
  rw [hcons, searchFirst, hhead]



/-- The classifier's address validation accepts any base58 string of
length 32 to 44. -/
theorem isBase58StrCI_of_B58 (addr : List Char) (hB : B58 addr)
    (h32 : 32 ≤ addr.length) (h44 : addr.length ≤ 44) :
    isBase58StrCI addr = true := by
  simp only [isBase58StrCI, Bool.and_eq_true, decide_eq_true_eq, List.all_eq_true]
  exact ⟨⟨fun c hc => b58_ci c (hB c hc), h32⟩, h44⟩

/-- C8 (amended): for every base58 address of length 32 to 44 that does not
itself begin (case-insensitively) with `price` or `value`, the classifier
parses `send 0.1 SOL to <address>` as a send intent with amount `0.1`,
fromToken `SOL` and recipient the address. The original claim fails in two
ways, shown in `parse_send_transfer_counterexample`: the code's send
pattern accepts only the verb `send` (there is no `transfer` alternative,
so `transfer 0.1 SOL to <address>` parses to no intent at all), and an
address beginning with `price` (a legal base58 prefix) is captured first
by the earlier `(\w+) price` price pattern, yielding a price intent. -/
theorem parseRequest_send_amended (addr : List Char) (hB : B58 addr)
    (h32 : 32 ≤ addr.length) (h44 : addr.length ≤ 44)
    (hpr : leadsWithCI "price".toList addr = false)
    (hvl : leadsWithCI "value".toList addr = false) :
    parseRequest (String.mk (sendPre ++ addr)) =
      some { action := .send, amount := some "0.1", fromToken := some "SOL",
             recipient := some (String.mk addr) } := by
  have htext : (String.mk (sendPre ++ addr)).toList = sendPre ++ addr := rfl
  rw [parseRequest]
  simp only [htext, greeting_no_hit addr, help_no_hit addr,
    historyPatterns, balancePatterns, memePatterns, pricePatterns,
    List.any_cons, List.any_nil, firstHit,
    hist1_no_hit addr hB, hist2_no_hit addr hB, hist3_no_hit addr hB, hist4_no_hit addr hB,
    bal1_no_hit addr hB, bal2_no_hit addr hB, bal3_no_hit addr hB, bal4_no_hit addr hB,
    meme1_no_hit addr hB, meme2_no_hit addr hB, meme3_no_hit addr hB,
    meme4_no_hit addr hB, meme5_no_hit addr hB, meme6_no_hit addr hB,
    price1_no_hit addr hB, price2_no_hit addr hB,
    price3_no_hit addr hB hpr, price4_no_hit addr hB hvl,
    sendRe_hit addr hB h32 h44, isBase58StrCI_of_B58 addr hB h32 h44,
    Option.isSome_none, Bool.or_self, Bool.or_false, false_or,
    Bool.not_true, if_false, ite_false, Bool.false_eq_true]
  rfl

/-- A concrete 32-character base58 address used to instantiate the parser
theorems. -/
def zAddr : List Char := List.replicate 32 'z'

/-- C8 counterexample: `transfer 0.1 SOL to <addr>` is not recognized at
all, and `send 0.1 SOL to price<27 chars>` — whose address is a perfectly
valid base58 string — is classified as a price query for symbol `TO`. -/
theorem parse_send_transfer_counterexample :
    parseRequest (String.mk ("transfer 0.1 SOL to ".toList ++ zAddr)) = none ∧
    parseRequest (String.mk (sendPre ++ "price".toList ++ List.replicate 27 'z')) =
      some { action := .price, symbol := some "TO" } := by
  constructor
  · decide
  · decide

/-- Witness instantiating `parseRequest_send_amended` on a concrete
32-character address. -/
theorem parseRequest_send_amended_witness :
    B58 zAddr ∧ 32 ≤ zAddr.length ∧ zAddr.length ≤ 44 ∧
    leadsWithCI "price".toList zAddr = false ∧
    leadsWithCI "value".toList zAddr = false ∧
    parseRequest (String.mk (sendPre ++ zAddr)) =
      some { action := .send, amount := some "0.1", fromToken := some "SOL",
             recipient := some (String.mk zAddr) } :=
  ⟨(by decide : ∀ c ∈ zAddr, isBase58Char c = true), by decide, by decide,
   by decide, by decide,
   parseRequest_send_amended zAddr
     (by decide : ∀ c ∈ zAddr, isBase58Char c = true) (by decide) (by decide)
     (by decide) (by decide)⟩


/-! ## C9: the transfer command amount-and-token extraction -/

/-- The amount-token pattern's token allow-list, in the regex's written
order: `sol|usdc|usdt|bonk|jup|jto|ray|pyth|meme|wif`. -/
def amountTokens : List String :=
  ["sol", "usdc", "usdt", "bonk", "jup", "jto", "ray", "pyth", "meme", "wif"]

/-- A case-insensitive literal that captures the consumed input slice. -/
def mtakeCI : List Char → M (List Char)
  | [] => fun s => [([], s)]
  | a :: as => fun s =>
    match s with
    | [] => []
    | c :: cs =>
      if ciEq a c then (mtakeCI as cs).map (fun p => (c :: p.1, p.2)) else []

/-- The token alternation, capturing the matched input characters. -/
def tokCap : M (List Char) := malt (amountTokens.map (fun t => mtakeCI t.toList))

/-- Zero or more whitespace characters, `\s*`. -/
def spacesStar : M Unit := mmap (fun _ => ()) (mclsU isSpaceChar 0)

/-- The amount capture `(\d+\.?\d*)`: greedy digits, an optional dot,
more greedy digits, as the matched characters. -/
def amtCap : M (List Char) :=
  mbind (mclsU isDigitChar 1) (fun d1 =>
    mbind (malt [mmap (fun _ => ['.']) (mstr "."), mpure []]) (fun dot =>
      mbind (mclsU isDigitChar 0) (fun d2 => mpure (d1 ++ dot ++ d2))))

/-- The `\b` before the leading digit: start of input, or a non-word
previous character (the next character is a digit, hence word). -/
def wbStart (prev : Option Char) : M Unit :=
  fun s =>
    match prev with
    | none => [((), s)]
    | some c => if isWordChar c then [] else [((), s)]

/-- The `\b` after the token (whose last character is a letter): end of
input or a non-word character next. -/
def wbEnd : M Unit :=
  fun s =>
    match s with
    | [] => [((), [])]
    | c :: _ => if isWordChar c then [] else [((), s)]

/-- The pattern `\b(\d+\.?\d*)\s*(sol|usdc|...|wif)\b` (flag `i`) tried at
a position whose previous character is `prev`. -/
def amountTokenRe (prev : Option Char) : M (List Char × List Char) :=
  seqR (wbStart prev) (mbind amtCap (fun d =>
    seqR spacesStar (mbind tokCap (fun t =>
      seqL (mpure (d, t)) wbEnd))))

/-- Leftmost search that tracks the previous character, as `\b` needs. -/
def searchFirstPrev {α : Type} (m : Option Char → M α) :
    Option Char → List Char → Option α
  | prev, [] => ((m prev []).head?).map Prod.fst
  | prev, c :: t =>
    match (m prev (c :: t)).head? with
    | some p => some p.1
    | none => searchFirstPrev m (some c) t

/-- The amount-and-token extraction step of `parseTransferCommand`: match
the pattern against the text, `parseFloat` the first group, upper-case the
second, and return null on a missing match or a non-positive amount. -/
def extractAmountAndToken (text : String) : Option (ℚ × String) :=
  match searchFirstPrev amountTokenRe none text.toList with
  | none => none
  | some (d, t) =>
    match jsParseFloat (String.mk d) with
    | none => none
    | some amount =>
      if amount ≤ 0 then none else some (amount, strUpper (String.mk t))

/-- The extraction as the spec words it: a decimal number immediately
followed by an allow-list symbol, case-insensitively; first match, symbol
upper-cased, null on NaN or a non-positive amount. -/
def specAdjacentRe : M (List Char × List Char) :=
  mbind amtCap (fun d => mbind tokCap (fun t => mpure (d, t)))

/-- Reference extraction following the spec sentence, for comparison with
`extractAmountAndToken`. -/
def specExtractAmountAndToken (text : String) : Option (ℚ × String) :=
  match searchFirst specAdjacentRe text.toList with
  | none => none
  | some (d, t) =>
    match jsParseFloat (String.mk d) with
    | none => none
    | some amount =>
      if amount ≤ 0 then none else some (amount, strUpper (String.mk t))

/-- A run of characters all satisfying the class is consumed whole. -/
theorem takeWhile_all (p : Char → Bool) (xs : List Char)
    (hx : ∀ c ∈ xs, p c = true) : List.takeWhile p xs = xs := by
  induction xs with
  | nil => rfl
  | cons c t ih =>
    rw [List.takeWhile_cons, hx c (List.mem_cons_self c t)]
    simp only [if_true, ite_true, ih (fun x hx2 => hx x (List.mem_cons_of_mem c hx2))]

/-- A nonempty all-digit string parses as its decimal value. -/
theorem jsParseFloat_digits (ds : List Char) (hne : ds ≠ [])
    (hdig : ∀ c ∈ ds, isDigitChar c = true) :
    jsParseFloat (String.mk ds) = some ((digitsVal ds : ℚ)) := by
  have htw : List.takeWhile isDigitChar ds = ds := takeWhile_all _ _ hdig
  rcases ds with _ | ⟨c, t⟩
  · exact absurd rfl hne
  · have hc := hdig c (List.mem_cons_self c t)
    rw [jsParseFloat]
    split
    · next t2 heq =>
        have heq' : c :: t = '-' :: t2 := heq
        injection heq' with h1 h2
        rw [h1] at hc
        exact absurd hc (by decide)
    · next t2 heq =>
        have heq' : c :: t = '+' :: t2 := heq
        injection heq' with h1 h2
        rw [h1] at hc
        exact absurd hc (by decide)
    · next =>
        rw [show ({ data := c :: t } : String).toList = c :: t from rfl]
        simp only [htw, List.drop_length]
        rw [show decValue (c :: t) [] = ((digitsVal (c :: t) : ℚ)) from by
          rw [decValue, fracVal, show digitsVal [] = 0 from rfl]
          norm_num]
        rfl

/-- The character-by-character relation behind a full case-insensitive
match: pattern and text slice are `ciEq` pointwise. -/
def CIMatch (p w : List Char) : Prop :=
  List.Forall₂ (fun a b => ciEq a b = true) p w

theorem ciEq_symm (a b : Char) (h : ciEq a b = true) : ciEq b a = true := by
  simp only [ciEq, beq_iff_eq] at h ⊢
  omega

theorem ciEq_trans (a b c : Char) (h1 : ciEq a b = true) (h2 : ciEq b c = true) :
    ciEq a c = true := by
  simp only [ciEq, beq_iff_eq] at h1 h2 ⊢
  omega

/-- A pattern that matches (case-insensitively) the text slice `w` also
matches the canonical token `tl` that `w` is a casing of. -/
theorem ci_leads_trans (tl w pl : List Char) (hw : CIMatch tl w)
    (hp : leadsWithCI pl w = true) : leadsWithCI pl tl = true := by
  induction hw generalizing pl with
  | nil =>
    cases pl with
    | nil => rfl
    | cons q qs => simp [leadsWithCI] at hp
  | cons hab htl ih =>
    next a b as bs =>
      cases pl with
      | nil => rfl
      | cons q qs =>
        simp only [leadsWithCI, Bool.and_eq_true] at hp ⊢
        exact ⟨ciEq_trans q b a hp.1 (ciEq_symm a b hab), ih qs hp.2⟩

theorem mtakeCI_hit (p w rest : List Char) (h : CIMatch p w) :
    mtakeCI p (w ++ rest) = [(w, rest)] := by
  induction h with
  | nil => rfl
  | cons hab htl ih =>
    next a b as bs =>
      simp [mtakeCI, hab, ih]

theorem mtakeCI_miss (p s : List Char) (h : leadsWithCI p s = false) :
    mtakeCI p s = [] := by
  induction p generalizing s with
  | nil => simp [leadsWithCI] at h
  | cons a as ih =>
    cases s with
    | nil => rfl
    | cons c cs =>
      rw [mtakeCI]
      simp only [leadsWithCI, Bool.and_eq_false_iff] at h
      cases hc : ciEq a c
      · simp [hc]
      · rcases h with h | h
        · rw [hc] at h; exact absurd h (by decide)
        · simp [hc, ih cs h]

/-- On a text slice that is a casing of a listed token, the token
alternation returns exactly the slice, consuming it whole. -/
theorem tokCap_hit (t : String) (ht : t ∈ amountTokens) (w : List Char)
    (hw : CIMatch t.toList w) : tokCap w = [(w, [])] := by
  have hlen := List.Forall₂.length_eq hw
  have hyes : mtakeCI t.toList w = [(w, [])] := by
    have := mtakeCI_hit t.toList w [] hw
    rwa [List.append_nil] at this
  have hno : ∀ pl : List Char, leadsWithCI pl t.toList = false →
      mtakeCI pl w = [] := by
    intro pl hfalse
    refine mtakeCI_miss pl w ?_
    cases hcl : leadsWithCI pl w
    · rfl
    · rw [ci_leads_trans t.toList w pl hw hcl] at hfalse
      exact absurd hfalse (by decide)
  simp only [amountTokens, List.mem_cons, List.not_mem_nil, or_false] at ht
  rcases ht with rfl | rfl | rfl | rfl | rfl | rfl | rfl | rfl | rfl | rfl
  · simp only [tokCap, amountTokens, malt, List.map_cons, List.map_nil,
      List.flatMap_cons, List.flatMap_nil, List.append_nil, List.nil_append,
      hyes, hno "usdc".toList (by decide), hno "usdt".toList (by decide), hno "bonk".toList (by decide), hno "jup".toList (by decide), hno "jto".toList (by decide), hno "ray".toList (by decide), hno "pyth".toList (by decide), hno "meme".toList (by decide), hno "wif".toList (by decide)]
  · simp only [tokCap, amountTokens, malt, List.map_cons, List.map_nil,
      List.flatMap_cons, List.flatMap_nil, List.append_nil, List.nil_append,
      hyes, hno "sol".toList (by decide), hno "usdt".toList (by decide), hno "bonk".toList (by decide), hno "jup".toList (by decide), hno "jto".toList (by decide), hno "ray".toList (by decide), hno "pyth".toList (by decide), hno "meme".toList (by decide), hno "wif".toList (by decide)]
  · simp only [tokCap, amountTokens, malt, List.map_cons, List.map_nil,
      List.flatMap_cons, List.flatMap_nil, List.append_nil, List.nil_append,
      hyes, hno "sol".toList (by decide), hno "usdc".toList (by decide), hno "bonk".toList (by decide), hno "jup".toList (by decide), hno "jto".toList (by decide), hno "ray".toList (by decide), hno "pyth".toList (by decide), hno "meme".toList (by decide), hno "wif".toList (by decide)]
  · simp only [tokCap, amountTokens, malt, List.map_cons, List.map_nil,
      List.flatMap_cons, List.flatMap_nil, List.append_nil, List.nil_append,
      hyes, hno "sol".toList (by decide), hno "usdc".toList (by decide), hno "usdt".toList (by decide), hno "jup".toList (by decide), hno "jto".toList (by decide), hno "ray".toList (by decide), hno "pyth".toList (by decide), hno "meme".toList (by decide), hno "wif".toList (by decide)]
  · simp only [tokCap, amountTokens, malt, List.map_cons, List.map_nil,
      List.flatMap_cons, List.flatMap_nil, List.append_nil, List.nil_append,
      hyes, hno "sol".toList (by decide), hno "usdc".toList (by decide), hno "usdt".toList (by decide), hno "bonk".toList (by decide), hno "jto".toList (by decide), hno "ray".toList (by decide), hno "pyth".toList (by decide), hno "meme".toList (by decide), hno "wif".toList (by decide)]
  · simp only [tokCap, amountTokens, malt, List.map_cons, List.map_nil,
      List.flatMap_cons, List.flatMap_nil, List.append_nil, List.nil_append,
      hyes, hno "sol".toList (by decide), hno "usdc".toList (by decide), hno "usdt".toList (by decide), hno "bonk".toList (by decide), hno "jup".toList (by decide), hno "ray".toList (by decide), hno "pyth".toList (by decide), hno "meme".toList (by decide), hno "wif".toList (by decide)]
  · simp only [tokCap, amountTokens, malt, List.map_cons, List.map_nil,
      List.flatMap_cons, List.flatMap_nil, List.append_nil, List.nil_append,
      hyes, hno "sol".toList (by decide), hno "usdc".toList (by decide), hno "usdt".toList (by decide), hno "bonk".toList (by decide), hno "jup".toList (by decide), hno "jto".toList (by decide), hno "pyth".toList (by decide), hno "meme".toList (by decide), hno "wif".toList (by decide)]
  · simp only [tokCap, amountTokens, malt, List.map_cons, List.map_nil,
      List.flatMap_cons, List.flatMap_nil, List.append_nil, List.nil_append,
      hyes, hno "sol".toList (by decide), hno "usdc".toList (by decide), hno "usdt".toList (by decide), hno "bonk".toList (by decide), hno "jup".toList (by decide), hno "jto".toList (by decide), hno "ray".toList (by decide), hno "meme".toList (by decide), hno "wif".toList (by decide)]
  · simp only [tokCap, amountTokens, malt, List.map_cons, List.map_nil,
      List.flatMap_cons, List.flatMap_nil, List.append_nil, List.nil_append,
      hyes, hno "sol".toList (by decide), hno "usdc".toList (by decide), hno "usdt".toList (by decide), hno "bonk".toList (by decide), hno "jup".toList (by decide), hno "jto".toList (by decide), hno "ray".toList (by decide), hno "pyth".toList (by decide), hno "wif".toList (by decide)]
  · simp only [tokCap, amountTokens, malt, List.map_cons, List.map_nil,
      List.flatMap_cons, List.flatMap_nil, List.append_nil, List.nil_append,
      hyes, hno "sol".toList (by decide), hno "usdc".toList (by decide), hno "usdt".toList (by decide), hno "bonk".toList (by decide), hno "jup".toList (by decide), hno "jto".toList (by decide), hno "ray".toList (by decide), hno "pyth".toList (by decide), hno "meme".toList (by decide)]

/-- A character `ciEq`-related to a lowercase letter is itself a letter:
a word character that is no digit, no whitespace and no dot. -/
theorem ci_letter_class (a c : Char) (ha : 97 ≤ a.toNat ∧ a.toNat ≤ 122)
    (h : ciEq a c = true) :
    isWordChar c = true ∧ isDigitChar c = false ∧ isSpaceChar c = false ∧
      ciEq '.' c = false := by
  have h46 : ('.' : Char).toNat = 46 := by decide
  simp only [ciEq, lowerCode, beq_iff_eq, beq_eq_false_iff_ne, ne_eq, h46,
    isWordChar, isDigitChar, isSpaceChar, Bool.or_eq_true, Bool.and_eq_true,
    Bool.or_eq_false_iff, Bool.and_eq_false_iff, decide_eq_true_eq,
    decide_eq_false_iff_not, not_le] at h ⊢
  split at h <;> split at h <;> (try split) <;> omega

/-- Every character of a casing of a listed token is a letter. -/
theorem cimatch_chars (p w : List Char)
    (hp : ∀ a ∈ p, 97 ≤ a.toNat ∧ a.toNat ≤ 122) (hw : CIMatch p w) :
    ∀ c ∈ w, isWordChar c = true ∧ isDigitChar c = false ∧
      isSpaceChar c = false ∧ ciEq '.' c = false := by
  induction hw with
  | nil => intro c hc; exact absurd hc (List.not_mem_nil c)
  | cons hab htl ih =>
    next a b as bs =>
      intro c hc
      rcases List.mem_cons.mp hc with rfl | hc
      · exact ci_letter_class a c (hp a (List.mem_cons_self a as)) hab
      · exact ih (fun x hx => hp x (List.mem_cons_of_mem a hx)) c hc

/-- If the head of a list fails the class, the class consumes nothing. -/
theorem takeWhile_nil_head (p : Char → Bool) (xs : List Char)
    (h : ∀ c, xs.head? = some c → p c = false) :
    List.takeWhile p xs = [] := by
  cases xs with
  | nil => rfl
  | cons c t =>
    rw [List.takeWhile_cons, h c rfl]
    rfl

/-- The class consumes an all-members run and stops at a failing head. -/
theorem takeWhile_append_all (p : Char → Bool) (xs ys : List Char)
    (hx : ∀ c ∈ xs, p c = true) (hy : List.takeWhile p ys = []) :
    List.takeWhile p (xs ++ ys) = xs := by
  induction xs with
  | nil => exact hy
  | cons c t ih =>
    rw [List.cons_append, List.takeWhile_cons, hx c (List.mem_cons_self c t)]
    simp only [if_true, ite_true,
      ih (fun x hx2 => hx x (List.mem_cons_of_mem c hx2))]

theorem range_rev_succ (n : ℕ) :
    (List.range (n + 1)).reverse = n :: (List.range n).reverse := by
  rw [List.range_succ, List.reverse_append]
  rfl

/-- The unbounded greedy class on a run followed by a failing head offers
the full run first. -/
theorem mclsU_head (p : Char → Bool) (lo : ℕ) (xs ys : List Char)
    (hx : ∀ c ∈ xs, p c = true) (hy : List.takeWhile p ys = [])
    (hlo : lo ≤ xs.length) :
    ∃ tl, mclsU p lo (xs ++ ys) = (xs, ys) :: tl := by
  refine ⟨(List.range xs.length).reverse.filterMap
      (fun k => if lo ≤ k then some ((xs ++ ys).take k, (xs ++ ys).drop k)
                else none), ?_⟩
  rw [mclsU]
  simp only [takeWhile_append_all p xs ys hx hy, range_rev_succ,
    List.filterMap_cons, if_pos hlo, List.take_left, List.drop_left]

theorem space_not_digit (c : Char) (h : isSpaceChar c = true) :
    isDigitChar c = false := by
  simp only [isSpaceChar, Bool.or_eq_true, Bool.and_eq_true, beq_iff_eq,
    decide_eq_true_eq] at h
  simp only [isDigitChar, Bool.and_eq_false_iff, decide_eq_false_iff_not, not_le]
  omega

theorem space_not_dot (c : Char) (h : isSpaceChar c = true) :
    ciEq '.' c = false := by
  simp only [isSpaceChar, Bool.or_eq_true, Bool.and_eq_true, beq_iff_eq,
    decide_eq_true_eq] at h
  have h46 : ('.' : Char).toNat = 46 := by decide
  simp only [ciEq, lowerCode, beq_eq_false_iff_ne, ne_eq, h46]
  split <;> split <;> omega

/-- A list whose head is not a dot (case-insensitively) does not start
with the literal dot. -/
theorem leads_dot_head (xs : List Char)
    (h : ∀ c, xs.head? = some c → ciEq '.' c = false) :
    leadsWithCI ['.'] xs = false := by
  cases xs with
  | nil => rfl
  | cons c r => simp [leadsWithCI, h c rfl]

/-- C9 (amended): on a text of the shape digits-whitespace-token — any
nonempty digit run, any whitespace gap including none, any casing of an
allow-listed token — the extraction returns the digits' value and the
upper-cased token, or null exactly when the value is zero. The gap
refutes the spec's adjacency requirement; `extract_relaxed_match_counterexample`
shows the relaxed pattern also overrides an adjacent later match. -/
theorem extractAmountAndToken_amended (ds g w : List Char) (t : String)
    (hne : ds ≠ []) (hdig : ∀ c ∈ ds, isDigitChar c = true)
    (hg : ∀ c ∈ g, isSpaceChar c = true)
    (ht : t ∈ amountTokens) (hw : CIMatch t.toList w) :
    extractAmountAndToken (String.mk (ds ++ g ++ w)) =
      if digitsVal ds = 0 then none
      else some ((digitsVal ds : ℚ), strUpper (String.mk w)) := by
  have hlet : ∀ a ∈ t.toList, 97 ≤ a.toNat ∧ a.toNat ≤ 122 := by
    fin_cases ht <;> decide
  have hwchars := cimatch_chars t.toList w hlet hw
  have htw_w_digit : List.takeWhile isDigitChar w = [] :=
    takeWhile_nil_head _ _
      (fun c hc => (hwchars c (List.mem_of_mem_head? hc)).2.1)
  have htw_w_space : List.takeWhile isSpaceChar w = [] :=
    takeWhile_nil_head _ _
      (fun c hc => (hwchars c (List.mem_of_mem_head? hc)).2.2.1)
  have hd2 : List.takeWhile isDigitChar (g ++ w) = [] := by
    cases g with
    | nil => simpa using htw_w_digit
    | cons x gs =>
      rw [List.cons_append, List.takeWhile_cons,
        space_not_digit x (hg x (List.mem_cons_self x gs))]
      rfl
  have hdot_gw : leadsWithCI ['.'] (g ++ w) = false := by
    refine leads_dot_head _ ?_
    cases g with
    | nil =>
      intro c hc
      exact (hwchars c (List.mem_of_mem_head? hc)).2.2.2
    | cons x gs =>
      intro c hc
      have : c = x := by simpa using hc.symm
      subst this
      exact space_not_dot c (hg c (List.mem_cons_self c gs))
  have htok : tokCap w = [(w, [])] := tokCap_hit t ht w hw
  obtain ⟨tl2, hm2⟩ := mclsU_head isDigitChar 0 [] (g ++ w)
    (by intro c hc; exact absurd hc (List.not_mem_nil c)) hd2 (Nat.zero_le _)
  rw [List.nil_append] at hm2
  obtain ⟨tl3, hm3⟩ := mclsU_head isSpaceChar 0 g w hg htw_w_space (Nat.zero_le _)
  cases ds with
  | nil => exact absurd rfl hne
  | cons c dt =>
    obtain ⟨tl1, hm1⟩ := mclsU_head isDigitChar 1 (c :: dt) (g ++ w) hdig hd2
      (by simp)
    rw [List.cons_append] at hm1
    have hhead : (amountTokenRe none (c :: (dt ++ (g ++ w)))).head? =
        some ((c :: dt, w), []) := by
      simp [amountTokenRe, seqR, seqL, mbind, mpure, mmap, mstr, mlit, malt,
        spacesStar, amtCap, wbStart, wbEnd, hm1, hm2, hm3, hdot_gw, htok,
        List.cons_append]
    have hsearch : searchFirstPrev amountTokenRe none
        (String.mk ((c :: dt) ++ g ++ w)).toList = some (c :: dt, w) := by
      have hstep : (String.mk ((c :: dt) ++ g ++ w)).toList =
          c :: (dt ++ (g ++ w)) := by
        simp [List.append_assoc]
      rw [hstep, searchFirstPrev, hhead]
    rw [extractAmountAndToken, hsearch]
    dsimp only
    rw [jsParseFloat_digits (c :: dt) (by simp) hdig]
    dsimp only
    by_cases hz : digitsVal (c :: dt) = 0
    · rw [if_pos hz, if_pos (by simp [hz])]
    · rw [if_neg hz, if_neg]
      simp only [not_le]
      exact_mod_cast Nat.pos_of_ne_zero hz

/-- C9 counterexample: in `5 sol 3usdc` the only decimal number
immediately followed by an allow-list symbol is `3usdc`, so the spec's
reading extracts amount 3 and token `USDC`; the code's pattern has `\s*`
between number and symbol and so extracts the earlier relaxed match
`5 sol` instead. -/
theorem extract_relaxed_match_counterexample :
    specExtractAmountAndToken "5 sol 3usdc" = some (3, "USDC") ∧
    extractAmountAndToken "5 sol 3usdc" = some (5, "SOL") := by
  constructor
  · have hs : searchFirst specAdjacentRe "5 sol 3usdc".toList =
        some ("3".toList, "usdc".toList) := by decide
    rw [specExtractAmountAndToken, hs]
    dsimp only
    rw [jsParseFloat_digits "3".toList (by decide) (by decide)]
    rw [show digitsVal "3".toList = 3 from rfl]
    dsimp only
    rw [if_neg (by norm_num)]
    norm_num
    rfl
  · have hs : searchFirstPrev amountTokenRe none "5 sol 3usdc".toList =
        some ("5".toList, "sol".toList) := by decide
    rw [extractAmountAndToken, hs]
    dsimp only
    rw [jsParseFloat_digits "5".toList (by decide) (by decide)]
    rw [show digitsVal "5".toList = 5 from rfl]
    dsimp only
    rw [if_neg (by norm_num)]
    norm_num
    rfl

/-- Witness instantiating `extractAmountAndToken_amended` on `5 sOl`. -/
theorem extractAmountAndToken_amended_witness :
    (['5'] : List Char) ≠ [] ∧
    (∀ c ∈ (['5'] : List Char), isDigitChar c = true) ∧
    (∀ c ∈ ([' '] : List Char), isSpaceChar c = true) ∧
    "sol" ∈ amountTokens ∧ CIMatch "sol".toList ['s', 'O', 'l'] ∧
    extractAmountAndToken (String.mk (['5'] ++ [' '] ++ ['s', 'O', 'l'])) =
      if digitsVal ['5'] = 0 then none
      else some ((digitsVal ['5'] : ℚ), strUpper (String.mk ['s', 'O', 'l'])) :=
  ⟨by decide, by decide, by decide, by decide,
   List.Forall₂.cons (by decide) (List.Forall₂.cons (by decide)
     (List.Forall₂.cons (by decide) List.Forall₂.nil)),
   extractAmountAndToken_amended ['5'] [' '] ['s', 'O', 'l'] "sol"
     (by decide) (by decide) (by decide) (by decide)
     (List.Forall₂.cons (by decide) (List.Forall₂.cons (by decide)
       (List.Forall₂.cons (by decide) List.Forall₂.nil)))⟩

end Inteliq
